import Mathlib

/-!
# Employees-Dashboard: the employee store, the table and the form

A shallow embedding of the `useEmployees` hook (`src/hooks/useEmployees.js`),
of the `EmployeeTable` component (`src/components/EmployeeTable.jsx`), of the
validation of the add/edit form (`src/pages/AddEmployee.jsx`), of the effects
and the save handler of the Employees page (`src/pages/Employees.jsx`) and of
`formatDate` (`src/utils/format.js`).

The hook owns four pieces of React state (`employees`, `loading`, `error`,
`currentParams`) and four asynchronous operations (`fetch`, `create`, `remove`,
`edit`).  Each operation is embedded as a tree of state updates and remote
requests (`Async`), written with the same `try / catch / finally` shape as the
source.  It is executed against a remote endpoint whose answers are arbitrary
(`Remote`), either alone to completion (`Async.run`, `Store.steps`) or
interleaved with other operations, one event at a time (`Session.step`).
-/

namespace EmployeesDashboard

/-! ## Data model -/

/-- Employee identifier as delivered by the JSON API: a number or a string.
`===` on two such values is structural equality. -/
inductive Id where
  | num (n : Int)
  | str (s : String)
  deriving DecidableEq, Repr

/-- Employee record as returned by the remote endpoint. -/
structure Employee where
  id : Id
  name : String
  email : String
  designation : String
  department : String
  joiningDate : String
  isActive : Option Bool
  requestStatus : Option String
  deriving DecidableEq, Repr

/-- Candidate record sent by the add/edit form: the five form fields, no `id`. -/
structure Payload where
  name : String
  email : String
  designation : String
  department : String
  joiningDate : String
  deriving DecidableEq, Repr

/-- Query parameters of the list request: the object built in
`Employees.jsx`, whose only keys are `department` and `q`; `none` is an absent
key. -/
structure Params where
  department : Option String
  q : Option String
  deriving DecidableEq, Repr

/-- The empty parameter object `{}`. -/
def Params.empty : Params := ⟨none, none⟩

/-- Error object a rejected request carries. -/
structure ApiError where
  message : String
  deriving DecidableEq, Repr

/-- The four `useState` cells of `useEmployees`. -/
structure Store where
  employees : List Employee
  loading : Bool
  error : Option ApiError
  currentParams : Params
  deriving DecidableEq, Repr

/-- Initial values of the `useState` cells: `[]`, `false`, `null`, `{}`. -/
def Store.initial : Store :=
  { employees := [], loading := false, error := none, currentParams := Params.empty }

/-- Calls of `services/employeeService.js`. -/
inductive Request where
  | getEmployees (params : Params)
  | addEmployee (employee : Payload)
  | updateEmployee (id : Id) (payload : Payload)
  | deleteEmployee (id : Id)
  deriving DecidableEq, Repr

/-! ## Asynchronous operations -/

/-- Body of an `async` function of the hook: state setters and awaited service
calls, ending in a resolved value or a thrown error.  The continuation of a
service call receives `res.data` on success and the rejection otherwise. -/
inductive Async (α : Type) where
  | resolve (v : α)
  | reject (err : ApiError)
  | setLoading (b : Bool) (k : Async α)
  | setEmployees (f : List Employee → List Employee) (k : Async α)
  | setError (err : ApiError) (k : Async α)
  | setCurrentParams (p : Params) (k : Async α)
  | getEmployees (params : Params) (k : Except ApiError (List Employee) → Async α)
  | addEmployee (employee : Payload) (k : Except ApiError Employee → Async α)
  | updateEmployee (id : Id) (payload : Payload) (k : Except ApiError Employee → Async α)
  | deleteEmployee (id : Id) (k : Except ApiError Unit → Async α)

namespace Async

/-- Sequencing of statements: a thrown error skips the rest. -/
def bind {α β : Type} : Async α → (α → Async β) → Async β
  | resolve v, g => g v
  | reject err, _ => reject err
  | setLoading b k, g => setLoading b (bind k g)
  | setEmployees f k, g => setEmployees f (bind k g)
  | setError err k, g => setError err (bind k g)
  | setCurrentParams p k, g => setCurrentParams p (bind k g)
  | getEmployees params k, g => getEmployees params (fun r => bind (k r) g)
  | addEmployee employee k, g => addEmployee employee (fun r => bind (k r) g)
  | updateEmployee id payload k, g => updateEmployee id payload (fun r => bind (k r) g)
  | deleteEmployee id k, g => deleteEmployee id (fun r => bind (k r) g)

instance : Monad Async where
  pure := resolve
  bind := bind

/-- Statement `try { body } catch (err) { handler err }`. -/
def tryCatch {α : Type} : Async α → (ApiError → Async α) → Async α
  | resolve v, _ => resolve v
  | reject err, h => h err
  | setLoading b k, h => setLoading b (tryCatch k h)
  | setEmployees f k, h => setEmployees f (tryCatch k h)
  | setError err k, h => setError err (tryCatch k h)
  | setCurrentParams p k, h => setCurrentParams p (tryCatch k h)
  | getEmployees params k, h => getEmployees params (fun r => tryCatch (k r) h)
  | addEmployee employee k, h => addEmployee employee (fun r => tryCatch (k r) h)
  | updateEmployee id payload k, h => updateEmployee id payload (fun r => tryCatch (k r) h)
  | deleteEmployee id k, h => deleteEmployee id (fun r => tryCatch (k r) h)

/-- Statement `try { body } finally { fin }`: `fin` runs after `body` whether
it returned or threw, and the completion of `body` is kept unless `fin` itself
throws. -/
def tryFinally {α : Type} : Async α → Async Unit → Async α
  | resolve v, fin => bind fin (fun _ => resolve v)
  | reject err, fin => bind fin (fun _ => reject err)
  | setLoading b k, fin => setLoading b (tryFinally k fin)
  | setEmployees f k, fin => setEmployees f (tryFinally k fin)
  | setError err k, fin => setError err (tryFinally k fin)
  | setCurrentParams p k, fin => setCurrentParams p (tryFinally k fin)
  | getEmployees params k, fin => getEmployees params (fun r => tryFinally (k r) fin)
  | addEmployee employee k, fin => addEmployee employee (fun r => tryFinally (k r) fin)
  | updateEmployee id payload k, fin => updateEmployee id payload (fun r => tryFinally (k r) fin)
  | deleteEmployee id k, fin => deleteEmployee id (fun r => tryFinally (k r) fin)

/-- Settle an awaited promise: the value on success, a throw on rejection. -/
def settle {α : Type} : Except ApiError α → Async α
  | .ok v => resolve v
  | .error err => reject err

end Async

/-- State setter `setLoading(b)`. -/
def setLoading (b : Bool) : Async Unit := .setLoading b (.resolve ())

/-- State setter `setEmployees(f)` with a functional update `prev => f prev`;
`setEmployees(value)` is the constant update. -/
def setEmployees (f : List Employee → List Employee) : Async Unit :=
  .setEmployees f (.resolve ())

/-- State setter `setError(err)`. -/
def setError (err : ApiError) : Async Unit := .setError err (.resolve ())

/-- State setter `setCurrentParams(params)`. -/
def setCurrentParams (p : Params) : Async Unit := .setCurrentParams p (.resolve ())

/-- Awaited call `(await service.getEmployees(params)).data`. -/
def getEmployees (params : Params) : Async (List Employee) :=
  .getEmployees params Async.settle

/-- Awaited call `(await service.addEmployee(payload)).data`. -/
def addEmployee (employee : Payload) : Async Employee :=
  .addEmployee employee Async.settle

/-- Awaited call `(await service.updateEmployee(id, payload)).data`. -/
def updateEmployee (id : Id) (payload : Payload) : Async Employee :=
  .updateEmployee id payload Async.settle

/-- Awaited call `await service.deleteEmployee(id)`. -/
def deleteEmployee (id : Id) : Async Unit :=
  .deleteEmployee id Async.settle

/-- Hook operation `fetch(params)` (`useEmployees.js`, lines 29-40). -/
def fetch (params : Params) : Async Unit := do
  setLoading true
  Async.tryFinally
    (Async.tryCatch
      (do
        let res ← getEmployees params
        setEmployees (fun _ => res)
        setCurrentParams params)
      (fun err => setError err))
    (setLoading false)

/-- Hook operation `create(payload)` (`useEmployees.js`, lines 46-59).
`currentParams` is the value of the state cell captured by the closure when
the hook rendered. -/
def create (currentParams : Params) (payload : Payload) : Async Employee := do
  setLoading true
  Async.tryFinally
    (Async.tryCatch
      (do
        let res ← addEmployee payload
        setEmployees (fun prev => prev ++ [res])
        fetch currentParams
        return res)
      (fun err => do
        setError err
        Async.reject err))
    (setLoading false)

/-- Hook operation `remove(id)` (`useEmployees.js`, lines 65-73). -/
def remove (id : Id) : Async Unit := do
  setLoading true
  Async.tryFinally
    (do
      deleteEmployee id
      setEmployees (fun prev => prev.filter (fun e => e.id != id)))
    (setLoading false)

/-- Hook operation `edit(id, payload)` (`useEmployees.js`, lines 80-89). -/
def edit (id : Id) (payload : Payload) : Async Employee := do
  setLoading true
  Async.tryFinally
    (do
      let res ← updateEmployee id payload
      setEmployees (fun prev => prev.map (fun e => if e.id = id then res else e))
      return res)
    (setLoading false)

/-! ## Execution against a remote endpoint -/

/-- Answers of the remote CRUD endpoint to the requests of one operation: any
success value or any failure for each call. -/
structure Remote where
  getEmployees : Params → Except ApiError (List Employee)
  addEmployee : Payload → Except ApiError Employee
  updateEmployee : Id → Payload → Except ApiError Employee
  deleteEmployee : Id → Except ApiError Unit

/-- Completed run of an operation: how the promise settled, the store
afterwards, and every request issued, in order, each with the store as it was
when the request was sent. -/
structure Run (α : Type) where
  result : Except ApiError α
  store : Store
  requests : List (Request × Store)

/-- Run an operation to completion from store `s`, with no other operation in
flight, recording the requests issued (most recent last). -/
def Async.run {α : Type} (remote : Remote) : Async α → Store → List (Request × Store) → Run α
  | .resolve v, s, log => ⟨.ok v, s, log⟩
  | .reject err, s, log => ⟨.error err, s, log⟩
  | .setLoading b k, s, log => run remote k { s with loading := b } log
  | .setEmployees f k, s, log => run remote k { s with employees := f s.employees } log
  | .setError err k, s, log => run remote k { s with error := some err } log
  | .setCurrentParams p k, s, log => run remote k { s with currentParams := p } log
  | .getEmployees params k, s, log =>
      run remote (k (remote.getEmployees params)) s (log ++ [(.getEmployees params, s)])
  | .addEmployee employee k, s, log =>
      run remote (k (remote.addEmployee employee)) s (log ++ [(.addEmployee employee, s)])
  | .updateEmployee id payload k, s, log =>
      run remote (k (remote.updateEmployee id payload)) s (log ++ [(.updateEmployee id payload, s)])
  | .deleteEmployee id k, s, log =>
      run remote (k (remote.deleteEmployee id)) s (log ++ [(.deleteEmployee id, s)])

/-- Call `fetch(params)` on store `s`. -/
def Store.fetch (remote : Remote) (s : Store) (params : Params) : Run Unit :=
  (EmployeesDashboard.fetch params).run remote s []

/-- Call `create(payload)` on store `s`: the closure holds `s.currentParams`. -/
def Store.create (remote : Remote) (s : Store) (payload : Payload) : Run Employee :=
  (EmployeesDashboard.create s.currentParams payload).run remote s []

/-- Call `remove(id)` on store `s`. -/
def Store.remove (remote : Remote) (s : Store) (id : Id) : Run Unit :=
  (EmployeesDashboard.remove id).run remote s []

/-- Call `edit(id, payload)` on store `s`. -/
def Store.edit (remote : Remote) (s : Store) (id : Id) (payload : Payload) : Run Employee :=
  (EmployeesDashboard.edit id payload).run remote s []

/-- Record with the given id, name and department and every other field empty. -/
def Employee.basic (id : Int) (name department : String) : Employee :=
  { id := .num id, name := name, email := "", designation := "", department := department,
    joiningDate := "", isActive := none, requestStatus := none }

/-- Remote endpoint whose every call fails with the given error. -/
def Remote.failing (err : ApiError) : Remote :=
  { getEmployees := fun _ => .error err
    addEmployee := fun _ => .error err
    updateEmployee := fun _ _ => .error err
    deleteEmployee := fun _ => .error err }

/-! ## Fixtures for the concrete scenarios -/

/-- Record `{id:1, name:"A", department:"Eng"}`. -/
def recordA : Employee := Employee.basic 1 "A" "Eng"

/-- Record `{id:2, name:"B", department:"Sales"}`. -/
def recordB : Employee := Employee.basic 2 "B" "Sales"


/-- Store holding the list `[A, B]`, idle, no error, no filter remembered. -/
def storeAB : Store := { Store.initial with employees := [recordA, recordB] }

/-- Store holding `[A]` after a load filtered by `department=Eng`. -/
def storeEng : Store :=
  { Store.initial with employees := [recordA], currentParams := ⟨some "Eng", none⟩ }

/-- Parameters `{department: "Eng"}`. -/
def paramsEng : Params := ⟨some "Eng", none⟩

/-- Form payload for employee `C` of department Sales. -/
def payloadC : Payload :=
  { name := "C", email := "c@example.com", designation := "Rep", department := "Sales",
    joiningDate := "2024-01-01" }

/-- Record the server stores for a payload under the given id. -/
def Payload.withId (p : Payload) (id : Id) : Employee :=
  { id := id, name := p.name, email := p.email, designation := p.designation,
    department := p.department, joiningDate := p.joiningDate, isActive := none,
    requestStatus := none }

/-- Record the server creates for `payloadC`: id 3. -/
def recordC : Employee := payloadC.withId (.num 3)

/-- Error of a failed request. -/
def networkError : ApiError := ⟨"Network Error"⟩

/-- Endpoint that filters the list `[A, B]` by department on the server, and
accepts every write: a created record gets id 3, an updated record keeps its
id and takes the payload's fields. -/
def remoteFiltering : Remote :=
  { getEmployees := fun p =>
      .ok ([recordA, recordB].filter (fun e => p.department = none ∨ p.department = some e.department))
    addEmployee := fun p => .ok (p.withId (.num 3))
    updateEmployee := fun id p => .ok (p.withId id)
    deleteEmployee := fun _ => .ok () }

/-- Endpoint that accepts the create request and then fails the list request. -/
def remoteAddThenFail : Remote :=
  { Remote.failing networkError with addEmployee := fun _ => .ok recordC }

/-! ## Sequences of completed operations -/

/-- One call on the store that has run to completion, with the answers the
remote endpoint gave to its requests. -/
inductive Step where
  | fetch (remote : Remote) (params : Params)
  | create (remote : Remote) (payload : Payload)
  | remove (remote : Remote) (id : Id)
  | edit (remote : Remote) (id : Id) (payload : Payload)

/-- Store after one completed call. -/
def Store.step (s : Store) : Step → Store
  | .fetch remote params => (s.fetch remote params).store
  | .create remote payload => (s.create remote payload).store
  | .remove remote id => (s.remove remote id).store
  | .edit remote id payload => (s.edit remote id payload).store

/-- Store after a sequence of completed calls, each starting when the previous
one has completed. -/
def Store.steps (s : Store) (steps : List Step) : Store :=
  steps.foldl Store.step s

/-- Store after a sequence of `fetch` calls, each given with the endpoint that
answers it. -/
def Store.fetchAll (s : Store) (loads : List (Remote × Params)) : Store :=
  s.steps (loads.map (fun x => Step.fetch x.1 x.2))

/-- The ids of the records of a list are pairwise distinct. -/
def uniqueIds (l : List Employee) : Prop := (l.map (fun e => e.id)).Nodup

instance (l : List Employee) : Decidable (uniqueIds l) := by
  unfold uniqueIds; infer_instance

/-- Answers of a well-behaved endpoint to one call on store `s`: every list it
returns has pairwise distinct ids, a record it creates has an id that no
record of the local list has when the reload after it fails, and a record it
returns for an update carries the id that was asked for. -/
def Step.answersKeepIds (s : Store) : Step → Prop
  | .fetch remote params => ∀ l, remote.getEmployees params = .ok l → uniqueIds l
  | .create remote payload =>
      ∀ r, remote.addEmployee payload = .ok r →
        (∀ l, remote.getEmployees s.currentParams = .ok l → uniqueIds l) ∧
        (∀ err, remote.getEmployees s.currentParams = .error err →
          ∀ e ∈ s.employees, e.id ≠ r.id)
  | .remove _ _ => True
  | .edit remote id payload => ∀ r, remote.updateEmployee id payload = .ok r → r.id = id

/-- Every call of the sequence, started from `s`, is answered by a well-behaved
endpoint. -/
def Store.answersKeepIds : Store → List Step → Prop
  | _, [] => True
  | s, st :: rest => st.answersKeepIds s ∧ Store.answersKeepIds (s.step st) rest

/-- Endpoint whose list request returns the record `A` twice. -/
def remoteDuplicates : Remote :=
  { remoteFiltering with getEmployees := fun _ => .ok [recordA, recordA] }

/-! ## The hook's effects -/

/-- Call of one of the four operations the hook returns. -/
inductive Call where
  | fetch (params : Params)
  | create (payload : Payload)
  | remove (id : Id)
  | edit (id : Id) (payload : Payload)
  deriving DecidableEq, Repr

/-- React's `useEffect(effect, deps)`: the effect runs after the first render
(`prevDeps = none`) and after every render whose `deps` differ from those of
the render before. -/
def useEffect {α δ : Type} [DecidableEq δ] (effect : α) (prevDeps : Option δ) (deps : δ) :
    List α :=
  if prevDeps = some deps then [] else [effect]

/-- Identity of the `fetch` function at each render of the hook:
`useCallback(…, [])` hands back the function of the first render. -/
def fetchIdentity (_render : Nat) : Nat := 0

/-- Calls started by the effect of `useEmployees` after its render number
`render` (0 is the mount): `useEffect(() => { fetch(); }, [fetch])`, where
`fetch()` takes the default `params = {}`. -/
def useEmployeesEffects (render : Nat) : List Call :=
  useEffect (Call.fetch Params.empty)
    (if render = 0 then none else some (fetchIdentity (render - 1)))
    (fetchIdentity render)

/-- Parameters the filter effect of page `Employees` builds (lines 39-41):
`department` is set when `dept` is non-empty, `q` when `search` is. -/
def filterParams (dept search : String) : Params :=
  { department := if dept = "" then none else some dept
    q := if search = "" then none else some search }

/-- Calls started by the effects of page `Employees` after its render number
`render`: the effect of the hook, then the filter effect
`useEffect(() => { …; fetch(params); }, [dept, search, fetch])`; `previous`
holds `dept` and `search` of the render before. -/
def employeesEffects (previous : Option (String × String)) (dept search : String)
    (render : Nat) : List Call :=
  useEmployeesEffects render ++
    useEffect (Call.fetch (filterParams dept search))
      (previous.map (fun d => (d, fetchIdentity (render - 1))))
      ((dept, search), fetchIdentity render)

/-! ## Overlapping operations -/

/-- Drop the value an operation resolves with. -/
def Async.discard {α : Type} (x : Async α) : Async Unit :=
  x.bind (fun _ => .resolve ())

/-- Body a call runs; `create` is the closure of the current render, which
holds the store's `currentParams`. -/
def Call.toAsync (s : Store) : Call → Async Unit
  | .fetch params => EmployeesDashboard.fetch params
  | .create payload => (EmployeesDashboard.create s.currentParams payload).discard
  | .remove id => EmployeesDashboard.remove id
  | .edit id payload => (EmployeesDashboard.edit id payload).discard

/-- Run the state setters of a body up to its next `await`, or to its end. -/
def Async.advance {α : Type} : Async α → Store → Async α × Store
  | .setLoading b k, s => advance k { s with loading := b }
  | .setEmployees f k, s => advance k { s with employees := f s.employees }
  | .setError err k, s => advance k { s with error := some err }
  | .setCurrentParams p k, s => advance k { s with currentParams := p }
  | x, s => (x, s)

/-- The promise of the body has settled: nothing is left to run. -/
def Async.settled {α : Type} : Async α → Bool
  | .resolve _ => true
  | .reject _ => true
  | _ => false

/-- Hand a body suspended at an `await` the remote endpoint's answer to the
request it is waiting for. -/
def Async.resume {α : Type} (remote : Remote) : Async α → Async α
  | .getEmployees params k => k (remote.getEmployees params)
  | .addEmployee employee k => k (remote.addEmployee employee)
  | .updateEmployee id payload k => k (remote.updateEmployee id payload)
  | .deleteEmployee id k => k (remote.deleteEmployee id)
  | x => x

/-- Request a suspended body is waiting for. -/
def Async.awaits {α : Type} : Async α → Option Request
  | .getEmployees params _ => some (.getEmployees params)
  | .addEmployee employee _ => some (.addEmployee employee)
  | .updateEmployee id payload _ => some (.updateEmployee id payload)
  | .deleteEmployee id _ => some (.deleteEmployee id)
  | _ => none

/-- Store together with the operations in flight, each suspended at the
`await` of a request that has not been answered yet. -/
structure Session where
  store : Store
  inFlight : List (Async Unit)

/-- Freshly attached store with nothing in flight. -/
def Session.initial : Session := { store := Store.initial, inFlight := [] }

/-- What can happen to a session: a call starts, or the request of the `i`-th
operation in flight is answered (by what `remote` answers to it). -/
inductive Event where
  | start (call : Call)
  | respond (i : Nat) (remote : Remote)

/-- One event.  A started call runs to its first `await`; an answered operation
runs on the store as it is then, to its next `await` or to completion, when it
leaves the operations in flight. -/
def Session.step (σ : Session) : Event → Session
  | .start call =>
      let r := (call.toAsync σ.store).advance σ.store
      { store := r.2
        inFlight := if r.1.settled then σ.inFlight else σ.inFlight ++ [r.1] }
  | .respond i remote =>
      match σ.inFlight[i]? with
      | none => σ
      | some op =>
          let r := (op.resume remote).advance σ.store
          { store := r.2
            inFlight := if r.1.settled then σ.inFlight.eraseIdx i else σ.inFlight.set i r.1 }

/-- Session after a sequence of events. -/
def Session.steps (σ : Session) (events : List Event) : Session :=
  events.foldl Session.step σ

/-- Loading discipline of a body, `flag` being the last value it wrote to
`loading` since it was started or resumed (`none`: no write yet): it reaches
every `await` having written `true` last, and its end having written `false`
last. -/
def Async.Disciplined {α : Type} : Async α → Option Bool → Prop
  | .resolve _, flag => flag = some false
  | .reject _, flag => flag = some false
  | .setLoading b k, _ => Disciplined k (some b)
  | .setEmployees _ k, flag => Disciplined k flag
  | .setError _ k, flag => Disciplined k flag
  | .setCurrentParams _ k, flag => Disciplined k flag
  | .getEmployees _ k, flag => flag = some true ∧ ∀ r, Disciplined (k r) none
  | .addEmployee _ k, flag => flag = some true ∧ ∀ r, Disciplined (k r) none
  | .updateEmployee _ _ k, flag => flag = some true ∧ ∀ r, Disciplined (k r) none
  | .deleteEmployee _ k, flag => flag = some true ∧ ∀ r, Disciplined (k r) none

/-- Body suspended at an `await` whose continuation keeps the loading
discipline. -/
def Async.Suspended {α : Type} : Async α → Prop
  | .getEmployees _ k => ∀ r, Disciplined (k r) none
  | .addEmployee _ k => ∀ r, Disciplined (k r) none
  | .updateEmployee _ _ k => ∀ r, Disciplined (k r) none
  | .deleteEmployee _ k => ∀ r, Disciplined (k r) none
  | _ => False

/-- The completed call that a call becomes when nothing else is in flight and
`remote` answers its requests. -/
def Call.toStep (remote : Remote) : Call → Step
  | .fetch params => .fetch remote params
  | .create payload => .create remote payload
  | .remove id => .remove remote id
  | .edit id payload => .edit remote id payload

/-- Every operation in flight is suspended at an `await` and keeps the loading
discipline. -/
def Session.WellFormed (σ : Session) : Prop :=
  ∀ op ∈ σ.inFlight, op.Suspended

/-- A sequence of calls with well-behaved answers: load everything, create `C`
with a failing reload, update record 2, delete record 1. -/
def stepsExample : List Step :=
  [.fetch remoteFiltering Params.empty, .create remoteAddThenFail payloadC,
    .edit remoteFiltering (.num 2) payloadC, .remove remoteFiltering (.num 1)]

/-- A load filtered by `department=Eng` that fails, after a successful
unfiltered one and before another failure. -/
def loadsExample : List (Remote × Params) :=
  [(remoteFiltering, ⟨none, some "a"⟩), (Remote.failing networkError, paramsEng),
    (Remote.failing networkError, Params.empty)]

/-- The list `[A, B]` is loaded; then a load and a remove overlap, and the
remove is answered first. -/
def overlapEvents : List Event :=
  [.start (.fetch Params.empty), .respond 0 remoteFiltering, .start (.fetch paramsEng),
    .start (.remove (.num 1)), .respond 1 remoteFiltering]

/-! ## The employee table (`src/components/EmployeeTable.jsx`)

The component configures the `react-table` hooks and renders what they hand
back.  The options and the cell renderers are taken from the component; the
behaviour of the hooks themselves, which is not part of the repository's
sources, is modelled from the specification where a definition says so. -/

/-- Columns of the table, in the order of the `columns` array. -/
inductive Column where
  | id
  | name
  | email
  | designation
  | department
  | joiningDate
  | actions
  deriving DecidableEq, Repr

/-- Column option `disableSortBy`: set on the Actions column only. -/
def Column.disableSortBy : Column → Bool
  | .actions => true
  | _ => false

/-- Table option `initialState: { pageSize: 5 }`. -/
def pageSize : Nat := 5

/-- Table option `data: data || []`, by the items of the array it hands to
`useTable`; `none` is a `null` or `undefined` prop.  Which array object is
handed over is told by `tableDataIdentity`. -/
def tableData (data : Option (List Employee)) : List Employee :=
  data.getD []

/-- Identity of the array object handed to `useTable` as `data`: the array
passed as the prop, or the array that the literal `[]` builds at one render of
the component. -/
inductive DataIdentity where
  | ofProp (array : Nat)
  | literalAt (render : Nat)
  deriving DecidableEq, Repr

/-- Table option `data: data || []` at render number `render`, by object
identity.  An array prop is truthy, also when it is empty, and is handed on as
it is (`data` names the array object); for `null` or `undefined` (`none`) the
literal `[]` is evaluated, which builds a new array at every render. -/
def tableDataIdentity (render : Nat) (data : Option Nat) : DataIdentity :=
  match data with
  | some array => .ofProp array
  | none => .literalAt render

/-- Row object handed to a cell renderer; the cells of the component read
`row.index` and `row.original`. -/
structure Row where
  index : Nat
  original : Employee
  deriving DecidableEq, Repr

/-- Cell of the "ID" column: `({ row }) => row.index + 1`. -/
def idCell (row : Row) : Nat := row.index + 1

/-- Invocation of one of the callback props of the table. -/
inductive Callback where
  | onEdit (record : Employee)
  | onDelete (id : Id)
  deriving DecidableEq, Repr

/-- Click on the edit button of a row: `() => onEdit && onEdit(row.original)`;
`hasOnEdit` tells whether the prop was passed. -/
def editClick (hasOnEdit : Bool) (row : Row) : List Callback :=
  if hasOnEdit then [.onEdit row.original] else []

/-- Click on the delete button of a row: `() => onDelete(row.original.id)`;
calling a prop that was not passed throws. -/
def deleteClick (hasOnDelete : Bool) (row : Row) : Except String (List Callback) :=
  if hasOnDelete then .ok [.onDelete row.original.id]
  else .error "TypeError: onDelete is not a function"

/-- Modelled from the spec: the page arithmetic of react-table's
`usePagination`, which is not among the sources.  "A fixed page size": the
rows are shown in consecutive windows of `pageSize` rows, and the number of
pages is the number of windows needed to show every row. -/
def pageCount {α : Type} (rows : List α) : Nat :=
  (rows.length + pageSize - 1) / pageSize

/-- Modelled from the spec: the window of rows react-table's `usePagination`
(not among the sources) shows on page `pageIndex`, counted from 0. -/
def page {α : Type} (rows : List α) (pageIndex : Nat) : List α :=
  (rows.drop (pageSize * pageIndex)).take pageSize

/-- Modelled from the spec: `canGoPrevious` of react-table's `usePagination`
(not among the sources): there is a page before the current one. -/
def canPreviousPage (pageIndex : Nat) : Bool :=
  decide (0 < pageIndex)

/-- Modelled from the spec: `canGoNext` of react-table's `usePagination` (not
among the sources): there is a page after the current one. -/
def canNextPage {α : Type} (rows : List α) (pageIndex : Nat) : Bool :=
  decide (pageIndex + 1 < pageCount rows)

/-- Modelled from the spec: the page reset of react-table's `usePagination`
(not among the sources).  "The current page index resets to the first page
whenever the underlying sorted record set's identity changes size or order
such that the current page would be out of range": a page whose start index
is beyond the rows is out of range. -/
def resetPage {α : Type} (rows : List α) (pageIndex : Nat) : Nat :=
  if pageSize * pageIndex < rows.length then pageIndex else 0

/-- Sort state of the table: unsorted, or one column with a direction
(`true`: descending). -/
abbrev SortBy := Option (Column × Bool)

/-- Modelled from the spec: the header toggle of react-table's `useSortBy`
(not among the sources).  "Selecting a column header toggles between
ascending, descending, and unsorted for that column, and any previous sort
column is replaced"; a column with `disableSortBy` does not react. -/
def toggleSortBy (col : Column) (sortBy : SortBy) : SortBy :=
  if col.disableSortBy then sortBy
  else
    match sortBy with
    | none => some (col, false)
    | some (c, desc) =>
        if c = col then (if desc then none else some (col, true)) else some (col, false)

/-- Modelled from the spec: the sorted view of react-table's `useSortBy` (not
among the sources), a stable sort of a copy of the rows by the ordering of the
active column; `order col a b` tells whether `a` comes no later than `b` in
the default ordering of column `col`. -/
def sortedRows (order : Column → Employee → Employee → Bool) (sortBy : SortBy)
    (rows : List Employee) : List Employee :=
  match sortBy with
  | none => rows
  | some (col, false) => rows.insertionSort (fun a b => order col a b = true)
  | some (col, true) => rows.insertionSort (fun a b => order col b a = true)

/-- State the table keeps while it is mounted. -/
structure TableState where
  sortBy : SortBy
  pageIndex : Nat
  deriving DecidableEq, Repr

/-- State of a freshly mounted table: unsorted, first page. -/
def TableState.initial : TableState := { sortBy := none, pageIndex := 0 }

/-- What the component renders from the table instance: the records of the
current page and the state of the two pagination buttons. -/
structure TableView where
  page : List Employee
  pageCount : Nat
  canPreviousPage : Bool
  canNextPage : Bool
  deriving DecidableEq, Repr

/-- Component `EmployeeTable`: the `data` prop goes through `data || []`, the
sort and the pagination to the rendered view. -/
def EmployeeTable (order : Column → Employee → Employee → Bool)
    (data : Option (List Employee)) (state : TableState) : TableView :=
  { page := page (sortedRows order state.sortBy (tableData data)) state.pageIndex
    pageCount := pageCount (sortedRows order state.sortBy (tableData data))
    canPreviousPage := canPreviousPage state.pageIndex
    canNextPage := canNextPage (sortedRows order state.sortBy (tableData data)) state.pageIndex }

/-- A mounted table is handed a new `data` prop: its page index goes through
the page reset. -/
def TableState.receive (order : Column → Employee → Employee → Bool) (state : TableState)
    (data : Option (List Employee)) : TableState :=
  { state with
    pageIndex := resetPage (sortedRows order state.sortBy (tableData data)) state.pageIndex }

/-- Page `Employees`, lines 134-139: `loading ? <div>Loading...</div> :
<EmployeeTable data={employees} … />`.  The table is mounted only while the
store is not loading; `previous` is its state in the render before (`none`:
it was not mounted), and a table that was not mounted starts from its initial
state. -/
def employeesTable (order : Column → Employee → Employee → Bool) (store : Store)
    (previous : Option TableState) : Option TableState :=
  if store.loading then none
  else
    match previous with
    | none => some TableState.initial
    | some state => some (state.receive order (some store.employees))

/-- Text that the accessor of a column reads from a record. -/
def Column.text : Column → Employee → String
  | .id, e => match e.id with
    | .num n => toString n
    | .str t => t
  | .name, e => e.name
  | .email, e => e.email
  | .designation, e => e.designation
  | .department, e => e.department
  | .joiningDate, e => e.joiningDate
  | .actions, _ => ""

/-- An ordering of the columns for the scenarios: lexical order of the text. -/
def lexicalOrder (col : Column) (a b : Employee) : Bool :=
  decide (col.text a ≤ col.text b)

/-- Twelve records, ids 0 to 11. -/
def twelveRecords : List Employee :=
  (List.range 12).map (fun i => Employee.basic i "E" "Eng")

/-! ## Loads in flight -/

/-- A `fetch(params)` suspended at its list request. -/
def fetchInFlight (params : Params) : Async Unit :=
  ((fetch params).advance Store.initial).1

/-- A load with `department=Eng` is started, then a remove of record 1, on the
loaded list `[A, B]`; the remove is answered first and the load afterwards, by
a server that computed its list before the delete. -/
def lostRemoveEvents : List Event :=
  overlapEvents ++ [.respond 0 remoteFiltering]

/-- A `create(payload)` of a render that held `currentParams`, suspended at
its create request. -/
def createInFlight (currentParams : Params) (payload : Payload) : Async Unit :=
  ((create currentParams payload).discard.advance Store.initial).1

/-- Event of an interleaving of loads: a call of `fetch`, or an answer to a
request in flight. -/
def Event.isLoad : Event → Bool
  | .start (.fetch _) => true
  | .start _ => false
  | .respond _ _ => true

/-- Bookkeeping of an interleaving of loads, in the words of the claim: the
params of the loads called and not yet answered, in the order of the calls,
and the params of the load whose successful response was applied last
(`none`: no response has succeeded). -/
structure LoadLog where
  pending : List Params
  lastApplied : Option Params
  deriving DecidableEq, Repr

/-- Nothing called, nothing applied. -/
def LoadLog.empty : LoadLog := { pending := [], lastApplied := none }

/-- One event: a called load becomes pending; an answered load stops being
pending and, when its answer is a success, is the one applied last. -/
def LoadLog.step (log : LoadLog) : Event → LoadLog
  | .start (.fetch params) => { log with pending := log.pending ++ [params] }
  | .start _ => log
  | .respond i remote =>
      match log.pending[i]? with
      | none => log
      | some params =>
          { pending := log.pending.eraseIdx i
            lastApplied :=
              match remote.getEmployees params with
              | .ok _ => some params
              | .error _ => log.lastApplied }

/-- The bookkeeping after a sequence of events. -/
def LoadLog.steps (log : LoadLog) (events : List Event) : LoadLog :=
  events.foldl LoadLog.step log

/-- Two overlapping loads that both succeed, the one called last (with
`department=Eng`) answered first. -/
def crossedLoads : List Event :=
  [.start (.fetch ⟨none, some "a"⟩), .start (.fetch paramsEng), .respond 1 remoteFiltering,
    .respond 0 remoteFiltering]

/-! ## The add/edit form (`src/pages/AddEmployee.jsx`) -/

/-- Characters from `lo` to `hi`, as in a class range `lo-hi`. -/
def charRange (lo hi : Char) : List Char :=
  (List.range (hi.toNat - lo.toNat + 1)).map (fun i => Char.ofNat (lo.toNat + i))

/-- Class `[A-Z]` under the flag `i`: the range and its lower-case twin. -/
def lettersClass : List Char := charRange 'A' 'Z' ++ charRange 'a' 'z'

/-- Class `[A-Z0-9._%+-]` under the flag `i`. -/
def localClass : List Char := lettersClass ++ charRange '0' '9' ++ ['.', '_', '%', '+', '-']

/-- Class `[A-Z0-9.-]` under the flag `i`. -/
def domainClass : List Char := lettersClass ++ charRange '0' '9' ++ ['.', '-']

/-- Regular expression matching one character of the class. -/
def charClass (cs : List Char) : RegularExpression Char :=
  cs.foldr (fun c r => RegularExpression.char c + r) 0

/-- Quantifier `+`. -/
def oneOrMore (r : RegularExpression Char) : RegularExpression Char := r * r.star

/-- Quantifier `{2,}`. -/
def twoOrMore (r : RegularExpression Char) : RegularExpression Char := r * (r * r.star)

/-- The pattern `/^[A-Z0-9._%+-]+@[A-Z0-9.-]+\.[A-Z]{2,}$/i` of `validate`;
the anchors make it a match of the whole string. -/
def emailPattern : RegularExpression Char :=
  oneOrMore (charClass localClass) *
    (RegularExpression.char '@' *
      (oneOrMore (charClass domainClass) *
        (RegularExpression.char '.' * twoOrMore (charClass lettersClass))))

/-- Call `emailPattern.test(email)`. -/
def emailTest (email : String) : Bool := emailPattern.rmatch email.toList

/-- A letter, in either case. -/
def isLetter (c : Char) : Prop := ('A' ≤ c ∧ c ≤ 'Z') ∨ ('a' ≤ c ∧ c ≤ 'z')

/-- A decimal digit. -/
def isDigit (c : Char) : Prop := '0' ≤ c ∧ c ≤ '9'

/-- Email shape in the words of the specification: one or more of
`[A-Z0-9._%+-]`, then `@`, then one or more of `[A-Z0-9.-]`, then `.`, then two
or more letters, case-insensitively. -/
def EmailShape (email : String) : Prop :=
  ∃ loc dom tld : List Char,
    email.toList = loc ++ '@' :: (dom ++ '.' :: tld) ∧
      loc ≠ [] ∧ (∀ c ∈ loc, isLetter c ∨ isDigit c ∨ c ∈ ['.', '_', '%', '+', '-']) ∧
      dom ≠ [] ∧ (∀ c ∈ dom, isLetter c ∨ isDigit c ∨ c ∈ ['.', '-']) ∧
      2 ≤ tld.length ∧ ∀ c ∈ tld, isLetter c

/-- The `errors` object of the form: the message of each field that has one. -/
structure FormErrors where
  name : Option String
  email : Option String
  designation : Option String
  department : Option String
  joiningDate : Option String
  deriving DecidableEq, Repr

/-- Keys of the `errors` object: `Object.keys(e)`. -/
def FormErrors.keys (e : FormErrors) : List String :=
  (if e.name.isSome then ["name"] else []) ++
    (if e.email.isSome then ["email"] else []) ++
    (if e.designation.isSome then ["designation"] else []) ++
    (if e.department.isSome then ["department"] else []) ++
    (if e.joiningDate.isSome then ["joiningDate"] else [])

/-- Function `validate` of the form (lines 45-56): the errors it sets and the
boolean it returns. -/
def validate (form : Payload) : FormErrors × Bool :=
  let e : FormErrors :=
    { name := if form.name = "" then some "Required" else none
      email :=
        if form.email = "" then some "Required"
        else if !emailTest form.email then some "Invalid"
        else none
      designation := if form.designation = "" then some "Required" else none
      department := if form.department = "" then some "Required" else none
      joiningDate := if form.joiningDate = "" then some "Required" else none }
  (e, e.keys.length == 0)

/-- Outcome of submitting the form: the errors shown and the calls of the
`onSubmit` prop. -/
structure FormSubmit where
  errors : FormErrors
  onSubmit : List Payload
  deriving DecidableEq, Repr

/-- Function `handleSubmit` of the form (lines 63-68):
`if (!validate()) return; await onSubmit(form);`. -/
def formHandleSubmit (form : Payload) : FormSubmit :=
  if !(validate form).2 then { errors := (validate form).1, onSubmit := [] }
  else { errors := (validate form).1, onSubmit := [form] }

/-- JavaScript truthiness of an id: `0` and `""` are falsy. -/
def Id.truthy : Id → Bool
  | .num n => n != 0
  | .str t => t != ""

/-- Flag `isEdit = !!initial?.id` of the form (line 71); `initial` is
`editing || {}`, so `none` stands for the empty object. -/
def isEdit (initial : Option Employee) : Bool :=
  match initial with
  | some e => e.id.truthy
  | none => false

/-- Label of the submit button: `isEdit ? "Update" : "Add"`. -/
def submitLabel (initial : Option Employee) : String :=
  if isEdit initial then "Update" else "Add"

/-! ## Saving from the page (`src/pages/Employees.jsx`) -/

/-- Modal and selection state of page `Employees`: `open` and `editing`. -/
structure PageState where
  modalOpen : Bool
  editing : Option Employee
  deriving DecidableEq, Repr

/-- Toast notification shown by the page. -/
inductive Toast where
  | success (message : String)
  | error (message : String)
  deriving DecidableEq, Repr

/-- Outcome of `handleSubmit` of the page: the store calls made, the store and
the page state afterwards, and the toasts shown. -/
structure Saved where
  calls : List Call
  store : Store
  page : PageState
  toasts : List Toast

/-- Title of the modal of page `Employees` (line 144):
`editing ? "Edit Employee" : "Add Employee"`. -/
def modalTitle (editing : Option Employee) : String :=
  if editing.isSome then "Edit Employee" else "Add Employee"

/-- Condition `editing && editing.id` of `handleSubmit`. -/
def editingWithId (editing : Option Employee) : Bool :=
  match editing with
  | some e => e.id.truthy
  | none => false

/-- Rest of `handleSubmit` once the awaited store call has settled with
`result`: after a resolved call the success toast, `setOpen(false)` and
`setEditing(null)`; after a rejected one the `catch` block, which only shows
the failure toast. -/
def saved (page : PageState) (call : Call) (result : Except ApiError Employee) (store : Store)
    (message : String) : Saved :=
  match result with
  | .ok _ =>
      { calls := [call], store := store, page := { modalOpen := false, editing := none }
        toasts := [.success message] }
  | .error _ =>
      { calls := [call], store := store, page := page, toasts := [.error "Failed to save"] }

/-- Function `handleSubmit` of page `Employees` (lines 50-64), run with no
other operation in flight: `edit(editing.id, payload)` is awaited when
`editing && editing.id` holds, `create(payload)` otherwise. -/
def pageHandleSubmit (remote : Remote) (s : Store) (page : PageState) (payload : Payload) :
    Saved :=
  match page.editing with
  | some e =>
      if editingWithId (some e) then
        saved page (.edit e.id payload) (s.edit remote e.id payload).result
          (s.edit remote e.id payload).store "Employee updated"
      else
        saved page (.create payload) (s.create remote payload).result
          (s.create remote payload).store "Employee added"
  | none =>
      saved page (.create payload) (s.create remote payload).result
        (s.create remote payload).store "Employee added"

/-- Record with id 0, as a backend that numbers from zero returns it. -/
def recordZero : Employee := Employee.basic 0 "Z" "Eng"

/-! ## Date rendering (`src/utils/format.js`) -/

/-- Built-in `Date.prototype.toLocaleDateString`: the text `Invalid Date` for
an invalid date (`none`), the locale's rendering `format` of the time value
otherwise. -/
def toLocaleDateString (format : Int → String) : Option Int → String
  | none => "Invalid Date"
  | some t => format t

/-- Function `formatDate(iso)`; `none` is `undefined` or `null`.  `parse` is
the built-in `new Date(iso)` (the time value, or `none` for an invalid date)
and `format` the rendering of the locale. -/
def formatDate (parse : String → Option Int) (format : Int → String) (iso : Option String) :
    String :=
  match iso with
  | none => ""
  | some s => if s = "" then "" else toLocaleDateString format (parse s)

/-- A `new Date(iso)` for the scenarios: it knows one timestamp. -/
def parseExample (iso : String) : Option Int :=
  if iso = "2025-08-09T10:00:00Z" then some 1754733600000 else none

/-- A locale rendering for the scenarios. -/
def formatExample (_t : Int) : String := "8/9/2025"

/-! ## Run lemmas: what each operation computes -/

theorem Async.bind_def {α β : Type} (x : Async α) (g : α → Async β) :
    (x >>= g) = Async.bind x g := rfl

theorem Async.pure_def {α : Type} (v : α) : (pure v : Async α) = Async.resolve v := rfl

theorem fetch_run (remote : Remote) (s : Store) (params : Params)
    (log : List (Request × Store)) :
    (fetch params).run remote s log =
      match remote.getEmployees params with
      | .ok l =>
          ⟨.ok (), { s with loading := false, employees := l, currentParams := params },
            log ++ [(.getEmployees params, { s with loading := true })]⟩
      | .error err =>
          ⟨.ok (), { s with loading := false, error := some err },
            log ++ [(.getEmployees params, { s with loading := true })]⟩ := by
  cases h : remote.getEmployees params <;>
    simp [fetch, Async.bind_def, Async.pure_def, Async.bind, Async.tryCatch, Async.tryFinally,
      Async.run, Async.settle, setLoading, setEmployees, setError, setCurrentParams,
      getEmployees, h]

theorem create_run (remote : Remote) (s : Store) (cp : Params) (payload : Payload)
    (log : List (Request × Store)) :
    (create cp payload).run remote s log =
      match remote.addEmployee payload with
      | .ok r =>
          match remote.getEmployees cp with
          | .ok l =>
              ⟨.ok r, { s with loading := false, employees := l, currentParams := cp },
                log ++ [(.addEmployee payload, { s with loading := true }),
                  (.getEmployees cp,
                    { s with loading := true, employees := s.employees ++ [r] })]⟩
          | .error err =>
              ⟨.ok r,
                { s with loading := false, employees := s.employees ++ [r], error := some err },
                log ++ [(.addEmployee payload, { s with loading := true }),
                  (.getEmployees cp,
                    { s with loading := true, employees := s.employees ++ [r] })]⟩
      | .error err =>
          ⟨.error err, { s with loading := false, error := some err },
            log ++ [(.addEmployee payload, { s with loading := true })]⟩ := by
  cases h : remote.addEmployee payload <;> cases h2 : remote.getEmployees cp <;>
    simp [create, fetch, Async.bind_def, Async.pure_def, Async.bind, Async.tryCatch,
      Async.tryFinally, Async.run, Async.settle, setLoading, setEmployees, setError,
      setCurrentParams, getEmployees, addEmployee, h, h2]

theorem remove_run (remote : Remote) (s : Store) (id : Id) (log : List (Request × Store)) :
    (remove id).run remote s log =
      match remote.deleteEmployee id with
      | .ok _ =>
          ⟨.ok (),
            { s with loading := false, employees := s.employees.filter (fun e => e.id != id) },
            log ++ [(.deleteEmployee id, { s with loading := true })]⟩
      | .error err =>
          ⟨.error err, { s with loading := false },
            log ++ [(.deleteEmployee id, { s with loading := true })]⟩ := by
  cases h : remote.deleteEmployee id <;>
    simp [remove, Async.bind_def, Async.pure_def, Async.bind, Async.tryFinally, Async.run,
      Async.settle, setLoading, setEmployees, deleteEmployee, h]

theorem edit_run (remote : Remote) (s : Store) (id : Id) (payload : Payload)
    (log : List (Request × Store)) :
    (edit id payload).run remote s log =
      match remote.updateEmployee id payload with
      | .ok r =>
          ⟨.ok r,
            { s with
              loading := false
              employees := s.employees.map (fun e => if e.id = id then r else e) },
            log ++ [(.updateEmployee id payload, { s with loading := true })]⟩
      | .error err =>
          ⟨.error err, { s with loading := false },
            log ++ [(.updateEmployee id payload, { s with loading := true })]⟩ := by
  cases h : remote.updateEmployee id payload <;>
    simp [edit, Async.bind_def, Async.pure_def, Async.bind, Async.tryFinally, Async.run,
      Async.settle, setLoading, setEmployees, updateEmployee, h]

/-! ## The store's operations, one at a time -/

/-- C1: when the list request of `fetch(params)` succeeds with the list `l`,
the record list afterwards is exactly `l`, whatever was held before, and the
remembered parameters are `params`. -/
theorem fetch_success_replaces_list (remote : Remote) (s : Store) (params : Params)
    (l : List Employee) (h : remote.getEmployees params = .ok l) :
    (s.fetch remote params).store.employees = l ∧
      (s.fetch remote params).store.currentParams = params := by
  simp [Store.fetch, fetch_run, h]

/-- Scenario of C1: with `[A, B]` held, a load with `department=Eng` answered
by the single record `A` leaves exactly `[A]`. -/
theorem fetch_success_replaces_list_witness :
    remoteFiltering.getEmployees paramsEng = .ok [recordA] ∧
      (storeAB.fetch remoteFiltering paramsEng).store.employees = [recordA] ∧
      (storeAB.fetch remoteFiltering paramsEng).store.currentParams = paramsEng :=
  ⟨rfl, fetch_success_replaces_list remoteFiltering storeAB paramsEng [recordA] rfl⟩

/-- C2: when the list request of `fetch(params)` fails with `err`, the store
records `err` as its last error and the record list is the one held before
the call. -/
theorem fetch_failure_keeps_list (remote : Remote) (s : Store) (params : Params)
    (err : ApiError) (h : remote.getEmployees params = .error err) :
    (s.fetch remote params).store.error = some err ∧
      (s.fetch remote params).store.employees = s.employees := by
  simp [Store.fetch, fetch_run, h]

theorem fetch_failure_keeps_list_witness :
    (Remote.failing networkError).getEmployees paramsEng = .error networkError ∧
      (storeAB.fetch (Remote.failing networkError) paramsEng).store.error = some networkError ∧
      (storeAB.fetch (Remote.failing networkError) paramsEng).store.employees
        = storeAB.employees :=
  ⟨rfl, fetch_failure_keeps_list (Remote.failing networkError) storeAB paramsEng networkError rfl⟩

/-- C3: when the create request succeeds with record `r`, `create` issues
exactly two requests: the create request, and then one list request whose
parameters are the remembered ones and which is sent when the local list is
already the previous list with `r` appended at the end; and `r` is returned
to the caller. -/
theorem create_success_appends_then_reloads (remote : Remote) (s : Store) (payload : Payload)
    (r : Employee) (h : remote.addEmployee payload = .ok r) :
    (s.create remote payload).requests =
        [(.addEmployee payload, { s with loading := true }),
          (.getEmployees s.currentParams,
            { s with loading := true, employees := s.employees ++ [r] })] ∧
      (s.create remote payload).result = .ok r := by
  cases h2 : remote.getEmployees s.currentParams <;>
    simp [Store.create, create_run, h, h2]

theorem create_success_appends_then_reloads_witness :
    remoteFiltering.addEmployee payloadC = .ok recordC ∧
      (storeEng.create remoteFiltering payloadC).requests =
        [(.addEmployee payloadC, { storeEng with loading := true }),
          (.getEmployees storeEng.currentParams,
            { storeEng with loading := true, employees := storeEng.employees ++ [recordC] })] ∧
      (storeEng.create remoteFiltering payloadC).result = .ok recordC :=
  ⟨rfl, create_success_appends_then_reloads remoteFiltering storeEng payloadC recordC rfl⟩

/-- C4, as stated, fails: with the filter `department=Eng` remembered, creating
the Sales employee `C` succeeds and returns `C`, and the reissued load, which
the server answers with the Eng records only, leaves a list without `C`. -/
theorem create_success_record_absent :
    (storeEng.create remoteFiltering payloadC).result = .ok recordC ∧
      recordC ∉ (storeEng.create remoteFiltering payloadC).store.employees :=
  ⟨rfl, by decide⟩

/-- C4, amended: after a successful create request with record `r`, the local
list is the list returned by the reissued load when that load succeeds, and
the previous list with `r` appended when that load fails; so it contains `r`
exactly when the reissued load failed or its list contains `r`. -/
theorem create_success_list_is_reload (remote : Remote) (s : Store) (payload : Payload)
    (r : Employee) (h : remote.addEmployee payload = .ok r) :
    (s.create remote payload).result = .ok r ∧
      (∀ l, remote.getEmployees s.currentParams = .ok l →
        (s.create remote payload).store.employees = l) ∧
      (∀ err, remote.getEmployees s.currentParams = .error err →
        (s.create remote payload).store.employees = s.employees ++ [r]) ∧
      (r ∈ (s.create remote payload).store.employees ↔
        ((∃ err, remote.getEmployees s.currentParams = .error err) ∨
          ∃ l, remote.getEmployees s.currentParams = .ok l ∧ r ∈ l)) := by
  cases h2 : remote.getEmployees s.currentParams <;>
    simp [Store.create, create_run, h, h2]

theorem create_success_list_is_reload_witness :
    remoteAddThenFail.addEmployee payloadC = .ok recordC ∧
      (storeEng.create remoteAddThenFail payloadC).result = .ok recordC ∧
      (∀ l, remoteAddThenFail.getEmployees storeEng.currentParams = .ok l →
        (storeEng.create remoteAddThenFail payloadC).store.employees = l) ∧
      (∀ err, remoteAddThenFail.getEmployees storeEng.currentParams = .error err →
        (storeEng.create remoteAddThenFail payloadC).store.employees
          = storeEng.employees ++ [recordC]) ∧
      (recordC ∈ (storeEng.create remoteAddThenFail payloadC).store.employees ↔
        ((∃ err, remoteAddThenFail.getEmployees storeEng.currentParams = .error err) ∨
          ∃ l, remoteAddThenFail.getEmployees storeEng.currentParams = .ok l ∧ recordC ∈ l)) :=
  ⟨rfl, create_success_list_is_reload remoteAddThenFail storeEng payloadC recordC rfl⟩

/-- C5: when the create request fails with `err`, `create` rejects with `err`,
the local record list is unchanged, and the create request is the only request
issued: no load follows. -/
theorem create_failure_rethrows (remote : Remote) (s : Store) (payload : Payload)
    (err : ApiError) (h : remote.addEmployee payload = .error err) :
    (s.create remote payload).result = .error err ∧
      (s.create remote payload).store.employees = s.employees ∧
      (s.create remote payload).requests = [(.addEmployee payload, { s with loading := true })] ∧
      ∀ p st, (Request.getEmployees p, st) ∉ (s.create remote payload).requests := by
  simp [Store.create, create_run, h]

theorem create_failure_rethrows_witness :
    (Remote.failing networkError).addEmployee payloadC = .error networkError ∧
      (storeAB.create (Remote.failing networkError) payloadC).result = .error networkError ∧
      (storeAB.create (Remote.failing networkError) payloadC).store.employees
        = storeAB.employees ∧
      (storeAB.create (Remote.failing networkError) payloadC).requests
        = [(.addEmployee payloadC, { storeAB with loading := true })] ∧
      ∀ p st, (Request.getEmployees p, st) ∉
        (storeAB.create (Remote.failing networkError) payloadC).requests :=
  ⟨rfl, create_failure_rethrows (Remote.failing networkError) storeAB payloadC networkError rfl⟩

/-- C6: when the delete request of `remove(id)` succeeds, the resulting list
is the previous list filtered by `e.id !== id`: no record with that id remains,
every record with another id remains, as often as before, and the result is a
subsequence of the previous list (same relative order). -/
theorem remove_success_filters_out (remote : Remote) (s : Store) (id : Id)
    (h : remote.deleteEmployee id = .ok ()) :
    (s.remove remote id).store.employees = s.employees.filter (fun e => e.id != id) ∧
      (∀ e ∈ (s.remove remote id).store.employees, e.id ≠ id) ∧
      (∀ e ∈ s.employees, e.id ≠ id → e ∈ (s.remove remote id).store.employees) ∧
      (∀ e, e.id ≠ id →
        (s.remove remote id).store.employees.count e = s.employees.count e) ∧
      (s.remove remote id).store.employees.Sublist s.employees := by
  have hrun : (s.remove remote id).store.employees
      = s.employees.filter (fun e => e.id != id) := by
    simp [Store.remove, remove_run, h]
  rw [hrun]
  refine ⟨rfl, ?_, ?_, ?_, List.filter_sublist _⟩
  · intro e he
    simpa using (List.mem_filter.mp he).2
  · intro e he hne
    exact List.mem_filter.mpr ⟨he, by simpa using hne⟩
  · intro e hne
    rw [List.count_filter]
    simpa using hne

theorem remove_success_filters_out_witness :
    remoteFiltering.deleteEmployee (.num 1) = .ok () ∧
      (storeAB.remove remoteFiltering (.num 1)).store.employees
        = storeAB.employees.filter (fun e => e.id != .num 1) ∧
      (∀ e ∈ (storeAB.remove remoteFiltering (.num 1)).store.employees, e.id ≠ .num 1) ∧
      (∀ e ∈ storeAB.employees, e.id ≠ .num 1 →
        e ∈ (storeAB.remove remoteFiltering (.num 1)).store.employees) ∧
      (∀ e, e.id ≠ .num 1 →
        (storeAB.remove remoteFiltering (.num 1)).store.employees.count e
          = storeAB.employees.count e) ∧
      (storeAB.remove remoteFiltering (.num 1)).store.employees.Sublist storeAB.employees :=
  ⟨rfl, remove_success_filters_out remoteFiltering storeAB (.num 1) rfl⟩

/-- C7: when the delete request of `remove(id)` fails with `err`, the local
record list is unchanged, so a record with that id that was present is still
present, and `remove` rejects with `err`. -/
theorem remove_failure_keeps_list (remote : Remote) (s : Store) (id : Id) (err : ApiError)
    (h : remote.deleteEmployee id = .error err) :
    (s.remove remote id).store.employees = s.employees ∧
      (∀ e ∈ s.employees, e.id = id → e ∈ (s.remove remote id).store.employees) ∧
      (s.remove remote id).result = .error err := by
  have hrun : (s.remove remote id).store.employees = s.employees := by
    simp [Store.remove, remove_run, h]
  rw [hrun]
  refine ⟨rfl, fun e he _ => he, ?_⟩
  simp [Store.remove, remove_run, h]

theorem remove_failure_keeps_list_witness :
    (Remote.failing networkError).deleteEmployee (.num 1) = .error networkError ∧
      (storeAB.remove (Remote.failing networkError) (.num 1)).store.employees
        = storeAB.employees ∧
      (∀ e ∈ storeAB.employees, e.id = .num 1 →
        e ∈ (storeAB.remove (Remote.failing networkError) (.num 1)).store.employees) ∧
      (storeAB.remove (Remote.failing networkError) (.num 1)).result = .error networkError :=
  ⟨rfl, remove_failure_keeps_list (Remote.failing networkError) storeAB (.num 1) networkError rfl⟩

/-- C8: when the update request of `edit(id, payload)` succeeds with record
`r`, the resulting list has the length of the previous one, holds `r` at every
position where the previous list had a record with that id, holds the previous
record at every other position, and `r` is returned to the caller. -/
theorem edit_success_replaces_matching (remote : Remote) (s : Store) (id : Id)
    (payload : Payload) (r : Employee) (h : remote.updateEmployee id payload = .ok r) :
    (s.edit remote id payload).store.employees.length = s.employees.length ∧
      (∀ (i : Nat) (e : Employee), s.employees[i]? = some e → e.id = id →
        (s.edit remote id payload).store.employees[i]? = some r) ∧
      (∀ (i : Nat) (e : Employee), s.employees[i]? = some e → e.id ≠ id →
        (s.edit remote id payload).store.employees[i]? = some e) ∧
      (s.edit remote id payload).result = .ok r := by
  have hrun : (s.edit remote id payload).store.employees
      = s.employees.map (fun e => if e.id = id then r else e) := by
    simp [Store.edit, edit_run, h]
  rw [hrun]
  refine ⟨List.length_map _ _, ?_, ?_, ?_⟩
  · intro i e he hid
    simp [List.getElem?_map, he, hid]
  · intro i e he hid
    simp [List.getElem?_map, he, hid]
  · simp [Store.edit, edit_run, h]

theorem edit_success_replaces_matching_witness :
    remoteFiltering.updateEmployee (.num 2) payloadC = .ok (payloadC.withId (.num 2)) ∧
      (storeAB.edit remoteFiltering (.num 2) payloadC).store.employees.length
        = storeAB.employees.length ∧
      (∀ (i : Nat) (e : Employee), storeAB.employees[i]? = some e → e.id = .num 2 →
        (storeAB.edit remoteFiltering (.num 2) payloadC).store.employees[i]?
          = some (payloadC.withId (.num 2))) ∧
      (∀ (i : Nat) (e : Employee), storeAB.employees[i]? = some e → e.id ≠ .num 2 →
        (storeAB.edit remoteFiltering (.num 2) payloadC).store.employees[i]? = some e) ∧
      (storeAB.edit remoteFiltering (.num 2) payloadC).result
        = .ok (payloadC.withId (.num 2)) :=
  ⟨rfl, edit_success_replaces_matching remoteFiltering storeAB (.num 2) payloadC
    (payloadC.withId (.num 2)) rfl⟩

/-- C9: when the update request of `edit(id, payload)` fails with `err`,
`edit` rejects with `err`, and the record list, the last error and the
remembered parameters are those held before the call. -/
theorem edit_failure_keeps_state (remote : Remote) (s : Store) (id : Id) (payload : Payload)
    (err : ApiError) (h : remote.updateEmployee id payload = .error err) :
    (s.edit remote id payload).result = .error err ∧
      (s.edit remote id payload).store.employees = s.employees ∧
      (s.edit remote id payload).store.error = s.error ∧
      (s.edit remote id payload).store.currentParams = s.currentParams := by
  simp [Store.edit, edit_run, h]

theorem edit_failure_keeps_state_witness :
    (Remote.failing networkError).updateEmployee (.num 2) payloadC = .error networkError ∧
      (storeEng.edit (Remote.failing networkError) (.num 2) payloadC).result
        = .error networkError ∧
      (storeEng.edit (Remote.failing networkError) (.num 2) payloadC).store.employees
        = storeEng.employees ∧
      (storeEng.edit (Remote.failing networkError) (.num 2) payloadC).store.error
        = storeEng.error ∧
      (storeEng.edit (Remote.failing networkError) (.num 2) payloadC).store.currentParams
        = storeEng.currentParams :=
  ⟨rfl, edit_failure_keeps_state (Remote.failing networkError) storeEng (.num 2) payloadC
    networkError rfl⟩

/-- C10: for each of `fetch`, `create`, `remove` and `edit`, run with no other
operation in flight, and for every answer of the remote endpoint to its
requests, the loading flag is false once the operation has completed. -/
theorem loading_cleared_on_completion (remote : Remote) (s : Store) (params : Params)
    (payload : Payload) (id : Id) :
    (s.fetch remote params).store.loading = false ∧
      (s.create remote payload).store.loading = false ∧
      (s.remove remote id).store.loading = false ∧
      (s.edit remote id payload).store.loading = false := by
  refine ⟨?_, ?_, ?_, ?_⟩
  · cases h : remote.getEmployees params <;> simp [Store.fetch, fetch_run, h]
  · cases h : remote.addEmployee payload <;> cases h2 : remote.getEmployees s.currentParams <;>
      simp [Store.create, create_run, h, h2]
  · cases h : remote.deleteEmployee id <;> simp [Store.remove, remove_run, h]
  · cases h : remote.updateEmployee id payload <;> simp [Store.edit, edit_run, h]

/-! ## Sequences of operations: ids and remembered parameters -/

theorem step_keeps_uniqueIds (s : Store) (st : Step) (hs : uniqueIds s.employees)
    (h : st.answersKeepIds s) : uniqueIds (s.step st).employees := by
  cases st with
  | fetch remote params =>
      cases hg : remote.getEmployees params with
      | error err => simpa [Store.step, Store.fetch, fetch_run, hg] using hs
      | ok l => simpa [Store.step, Store.fetch, fetch_run, hg] using h l hg
  | create remote payload =>
      cases ha : remote.addEmployee payload with
      | error err => simpa [Store.step, Store.create, create_run, ha] using hs
      | ok r =>
          cases hg : remote.getEmployees s.currentParams with
          | ok l => simpa [Store.step, Store.create, create_run, ha, hg] using (h r ha).1 l hg
          | error err =>
              have hfresh := (h r ha).2 err hg
              have hgoal : uniqueIds (s.employees ++ [r]) := by
                unfold uniqueIds at hs ⊢
                rw [List.map_append, List.nodup_append]
                refine ⟨hs, by simp, ?_⟩
                intro a ha1 ha2
                simp only [List.map_cons, List.map_nil, List.mem_singleton] at ha2
                obtain ⟨e, he, rfl⟩ := List.mem_map.mp ha1
                exact (hfresh e he) ha2
              simpa [Store.step, Store.create, create_run, ha, hg] using hgoal
  | remove remote id =>
      have hsub : uniqueIds (s.employees.filter (fun e => e.id != id)) :=
        List.Nodup.sublist ((List.filter_sublist s.employees).map _) hs
      cases hd : remote.deleteEmployee id with
      | error err => simpa [Store.step, Store.remove, remove_run, hd] using hs
      | ok u => simpa [Store.step, Store.remove, remove_run, hd] using hsub
  | edit remote id payload =>
      cases hu : remote.updateEmployee id payload with
      | error err => simpa [Store.step, Store.edit, edit_run, hu] using hs
      | ok r =>
          have hid : r.id = id := h r hu
          have hmap : (s.employees.map (fun e => if e.id = id then r else e)).map (fun e => e.id)
              = s.employees.map (fun e => e.id) := by
            rw [List.map_map]
            apply List.map_congr_left
            intro e _
            by_cases he : e.id = id <;> simp [he, hid]
          have hgoal : uniqueIds (s.employees.map (fun e => if e.id = id then r else e)) := by
            unfold uniqueIds
            rw [hmap]
            exact hs
          simpa [Store.step, Store.edit, edit_run, hu] using hgoal

theorem steps_keep_uniqueIds (steps : List Step) :
    ∀ s : Store, uniqueIds s.employees → s.answersKeepIds steps →
      uniqueIds (s.steps steps).employees := by
  induction steps with
  | nil => intro s hs _; simpa [Store.steps] using hs
  | cons st rest ih =>
      intro s hs h
      have h2 := ih (s.step st) (step_keeps_uniqueIds s st hs h.1) h.2
      simpa [Store.steps] using h2

/-- C11, as stated, fails: from the initial state, one load that the server
answers with the same record twice leaves two records with the same id. -/
theorem fetch_can_hold_duplicate_ids :
    ¬ uniqueIds (Store.initial.steps [Step.fetch remoteDuplicates Params.empty]).employees := by
  decide

/-- C11, amended: in every state reached from the initial state by a sequence
of load, create, remove and update steps whose answers are well behaved (every
returned list has pairwise distinct ids, a created record whose reload fails
has an id not yet in the local list, an updated record carries the id asked
for), no two records of the local list have the same id. -/
theorem unique_ids_with_well_behaved_server (steps : List Step)
    (h : Store.initial.answersKeepIds steps) :
    uniqueIds (Store.initial.steps steps).employees :=
  steps_keep_uniqueIds steps Store.initial (by decide) h

theorem create_request_log (remote : Remote) (s : Store)
    (payload : Payload) (r : Employee) (h : remote.addEmployee payload = .ok r) :
    (s.create remote payload).requests =
        [(.addEmployee payload, { s with loading := true }),
          (.getEmployees s.currentParams,
            { s with loading := true, employees := s.employees ++ [r] })] := by
  cases h2 : remote.getEmployees s.currentParams <;>
    simp [Store.create, create_run, h, h2]

theorem stepsExample_answersKeepIds : Store.initial.answersKeepIds stepsExample := by
  refine ⟨?_, ?_, ?_, trivial, trivial⟩
  · intro l hl
    have hl2 : l = [recordA, recordB] := (Except.ok.inj hl).symm
    subst hl2
    decide
  · intro r hr
    have hr2 : r = recordC := (Except.ok.inj hr).symm
    subst hr2
    refine ⟨fun l hl => ?_, fun err _ => by decide⟩
    exact absurd hl (by intro h; cases h)
  · intro r hr
    have hr2 : r = payloadC.withId (.num 2) := (Except.ok.inj hr).symm
    subst hr2
    rfl

theorem unique_ids_with_well_behaved_server_witness :
    Store.initial.answersKeepIds stepsExample ∧
      uniqueIds (Store.initial.steps stepsExample).employees :=
  ⟨stepsExample_answersKeepIds,
    unique_ids_with_well_behaved_server stepsExample stepsExample_answersKeepIds⟩

theorem fetchAll_append (s : Store) (a b : List (Remote × Params)) :
    s.fetchAll (a ++ b) = (s.fetchAll a).fetchAll b := by
  simp [Store.fetchAll, Store.steps, List.foldl_append]

theorem fetchAll_cons (s : Store) (x : Remote × Params) (rest : List (Remote × Params)) :
    s.fetchAll (x :: rest) = ((s.fetch x.1 x.2).store).fetchAll rest := by
  simp [Store.fetchAll, Store.steps, Store.step]

theorem fetchAll_failed (loads : List (Remote × Params)) :
    ∀ s : Store, (∀ y ∈ loads, ∃ err, y.1.getEmployees y.2 = .error err) →
      (s.fetchAll loads).currentParams = s.currentParams := by
  induction loads with
  | nil => intro s _; rfl
  | cons x rest ih =>
      intro s h
      obtain ⟨err, hx⟩ := h x (List.mem_cons_self _ _)
      rw [fetchAll_cons, ih _ (fun y hy => h y (List.mem_cons_of_mem _ hy))]
      simp [Store.fetch, fetch_run, hx]

/-- C12, as stated, fails: a load with `department=Eng` that fails is not
remembered, so the create that follows it reissues the load with the empty
parameters of the initial state. -/
theorem create_reload_forgets_failed_load :
    ((Store.initial.fetchAll [(Remote.failing networkError, paramsEng)]).create
        remoteFiltering payloadC).result = .ok recordC ∧
      ((Store.initial.fetchAll [(Remote.failing networkError, paramsEng)]).create
        remoteFiltering payloadC).requests.map Prod.fst
        = [.addEmployee payloadC, .getEmployees Params.empty] ∧
      Params.empty ≠ paramsEng :=
  ⟨rfl, rfl, by decide⟩

/-- Loads that do not overlap: when each load call has completed before the
next one starts and before create is called, the load that create reissues has
the params of the last load call that succeeded, and the params the store
remembered before the sequence when none of the loads succeeded. -/
theorem create_reloads_last_successful_params (s : Store) (loads : List (Remote × Params))
    (remote : Remote) (payload : Payload) (r : Employee)
    (h : remote.addEmployee payload = .ok r) :
    (∀ before x after, loads = before ++ x :: after →
        (∃ l, x.1.getEmployees x.2 = .ok l) →
        (∀ y ∈ after, ∃ err, y.1.getEmployees y.2 = .error err) →
        ((s.fetchAll loads).create remote payload).requests.map Prod.fst
          = [.addEmployee payload, .getEmployees x.2]) ∧
      ((∀ y ∈ loads, ∃ err, y.1.getEmployees y.2 = .error err) →
        ((s.fetchAll loads).create remote payload).requests.map Prod.fst
          = [.addEmployee payload, .getEmployees s.currentParams]) := by
  have hreq : ∀ t : Store, (t.create remote payload).requests.map Prod.fst
      = [.addEmployee payload, .getEmployees t.currentParams] := by
    intro t
    rw [(create_request_log remote t payload r h)]
    rfl
  refine ⟨?_, ?_⟩
  · intro before x after hloads hx hafter
    obtain ⟨l, hl⟩ := hx
    rw [hreq, hloads, fetchAll_append, fetchAll_cons, fetchAll_failed after _ hafter]
    simp [Store.fetch, fetch_run, hl]
  · intro hall
    rw [hreq, fetchAll_failed loads s hall]

theorem create_reloads_last_successful_params_witness :
    remoteFiltering.addEmployee payloadC = .ok recordC ∧
      ((Store.initial.fetchAll loadsExample).create remoteFiltering payloadC).requests.map
          Prod.fst
        = [.addEmployee payloadC, .getEmployees ⟨none, some "a"⟩] :=
  ⟨rfl,
    (create_reloads_last_successful_params Store.initial loadsExample remoteFiltering payloadC
      recordC rfl).1 [] (remoteFiltering, ⟨none, some "a"⟩)
      [(Remote.failing networkError, paramsEng), (Remote.failing networkError, Params.empty)]
      rfl ⟨_, rfl⟩
      (by
        intro y hy
        simp only [List.mem_cons, List.mem_singleton, List.not_mem_nil, or_false] at hy
        rcases hy with rfl | rfl <;> exact ⟨networkError, rfl⟩)⟩

/-! ## Attaching the store -/

/-- The hook on its own: the initial state of the store is the empty record
list, not loading, no error; the effect of the hook starts exactly one call
when the hook mounts, `fetch` with the empty parameters, and none after any
later render; and that call issues exactly one list request, with the empty
parameters. -/
theorem mount_issues_one_empty_load :
    Store.initial.employees = [] ∧ Store.initial.loading = false ∧
      Store.initial.error = none ∧
      useEmployeesEffects 0 = [Call.fetch Params.empty] ∧
      (∀ n, useEmployeesEffects (n + 1) = []) ∧
      ∀ remote : Remote,
        ((((Call.fetch Params.empty).toAsync Store.initial).run remote Store.initial []).requests.map
          Prod.fst) = [.getEmployees Params.empty] := by
  refine ⟨rfl, rfl, rfl, rfl, fun n => ?_, fun remote => ?_⟩
  · simp [useEmployeesEffects, useEffect, fetchIdentity]
  · cases h : remote.getEmployees Params.empty <;> simp [Call.toAsync, fetch_run, h]

/-- C13, a defect of the code: when page `Employees` mounts, with
its filters empty and none of them changed, attaching the store starts two
loads with the empty parameters, not one: the one of the hook's mount effect
and the one of the page's filter effect. -/
theorem employees_page_mount_calls :
    employeesEffects none "" "" 0 = [Call.fetch Params.empty, Call.fetch Params.empty] := by
  decide

/-! ## Overlapping operations: the loading flag -/

theorem advance_disciplined {α : Type} (x : Async α) :
    ∀ (flag : Option Bool) (s : Store), x.Disciplined flag →
      (∀ b, flag = some b → s.loading = b) →
      ((x.advance s).1.settled = true ∧ (x.advance s).2.loading = false) ∨
        ((x.advance s).1.Suspended ∧ (x.advance s).1.settled = false ∧
          (x.advance s).2.loading = true) := by
  induction x with
  | resolve v =>
      intro flag s h hf
      exact Or.inl ⟨rfl, hf false h⟩
  | reject err =>
      intro flag s h hf
      exact Or.inl ⟨rfl, hf false h⟩
  | setLoading b k ih =>
      intro flag s h _
      exact ih (some b) { s with loading := b } h (fun b2 hb => Option.some.inj hb)
  | setEmployees f k ih =>
      intro flag s h hf
      exact ih flag { s with employees := f s.employees } h hf
  | setError err k ih =>
      intro flag s h hf
      exact ih flag { s with error := some err } h hf
  | setCurrentParams p k ih =>
      intro flag s h hf
      exact ih flag { s with currentParams := p } h hf
  | getEmployees params k _ =>
      intro flag s h hf
      exact Or.inr ⟨h.2, rfl, hf true h.1⟩
  | addEmployee employee k _ =>
      intro flag s h hf
      exact Or.inr ⟨h.2, rfl, hf true h.1⟩
  | updateEmployee id payload k _ =>
      intro flag s h hf
      exact Or.inr ⟨h.2, rfl, hf true h.1⟩
  | deleteEmployee id k _ =>
      intro flag s h hf
      exact Or.inr ⟨h.2, rfl, hf true h.1⟩

theorem resume_suspended {α : Type} (remote : Remote) (op : Async α) (h : op.Suspended) :
    (op.resume remote).Disciplined none := by
  cases op <;> first | exact h _ | exact h.elim

theorem call_start (s : Store) (call : Call) :
    ((call.toAsync s).advance s).1.Suspended ∧ ((call.toAsync s).advance s).1.settled = false ∧
      ((call.toAsync s).advance s).2.loading = true := by
  cases call with
  | fetch params =>
      refine ⟨?_, rfl, rfl⟩
      intro r
      cases r <;>
        simp [Async.Disciplined, Async.settle, Async.bind, Async.tryCatch, Async.tryFinally,
          setEmployees, setCurrentParams, setError, setLoading, Async.bind_def, Async.pure_def]
  | create payload =>
      refine ⟨?_, rfl, rfl⟩
      intro r
      cases r with
      | error err =>
          simp [Async.Disciplined, Async.settle, Async.bind, Async.tryCatch, Async.tryFinally,
            setEmployees, setCurrentParams, setError, setLoading, Async.bind_def,
            Async.pure_def]
      | ok v =>
          simp only [Async.Disciplined, Async.settle, Async.bind, Async.tryCatch,
            Async.tryFinally, setEmployees, setCurrentParams, setError, setLoading,
            Async.bind_def, Async.pure_def, fetch, getEmployees, true_and]
          intro r2
          cases r2 <;>
            simp [Async.Disciplined, Async.settle, Async.bind, Async.tryCatch,
              Async.tryFinally]
  | remove id =>
      refine ⟨?_, rfl, rfl⟩
      intro r
      cases r <;>
        simp [Async.Disciplined, Async.settle, Async.bind, Async.tryCatch, Async.tryFinally,
          setEmployees, setCurrentParams, setError, setLoading, Async.bind_def, Async.pure_def]
  | edit id payload =>
      refine ⟨?_, rfl, rfl⟩
      intro r
      cases r <;>
        simp [Async.Disciplined, Async.settle, Async.bind, Async.tryCatch, Async.tryFinally,
          setEmployees, setCurrentParams, setError, setLoading, Async.bind_def, Async.pure_def]

theorem step_wellFormed (σ : Session) (ev : Event) (h : σ.WellFormed) :
    (σ.step ev).WellFormed := by
  cases ev with
  | start call =>
      obtain ⟨hs, hn, _⟩ := call_start σ.store call
      intro op hop
      simp only [Session.step, hn, Bool.false_eq_true, if_false, List.mem_append,
        List.mem_singleton] at hop
      rcases hop with hop | rfl
      · exact h op hop
      · exact hs
  | respond i remote =>
      cases hi : σ.inFlight[i]? with
      | none => simpa [Session.step, hi] using h
      | some op =>
          have hop : op.Suspended := h op (List.getElem?_mem hi)
          intro op2 hop2
          simp only [Session.step, hi] at hop2
          rcases advance_disciplined (op.resume remote) none σ.store
              (resume_suspended remote op hop) (by simp) with ⟨hset, _⟩ | ⟨hsus, hset, _⟩
          · rw [if_pos hset] at hop2
            exact h op2 ((List.eraseIdx_sublist _ _).subset hop2)
          · rw [if_neg (by simp [hset])] at hop2
            rcases List.mem_or_eq_of_mem_set hop2 with h3 | rfl
            · exact h op2 h3
            · exact hsus

theorem steps_wellFormed (events : List Event) :
    ∀ σ : Session, σ.WellFormed → (σ.steps events).WellFormed := by
  induction events with
  | nil => intro σ h; exact h
  | cons ev rest ih =>
      intro σ h
      exact ih (σ.step ev) (step_wellFormed σ ev h)

theorem initial_wellFormed : Session.initial.WellFormed := by
  intro op hop
  simp [Session.initial] at hop

theorem wellFormed_start (σ : Session) (call : Call) :
    (σ.step (.start call)).store.loading = true ∧
      (σ.step (.start call)).inFlight.length = σ.inFlight.length + 1 := by
  obtain ⟨_, hn, hl⟩ := call_start σ.store call
  simp [Session.step, hn, hl]

theorem wellFormed_respond (σ : Session) (h : σ.WellFormed) (i : Nat) (remote : Remote)
    (hi : i < σ.inFlight.length) :
    ((σ.step (.respond i remote)).inFlight.length = σ.inFlight.length ∧
        (σ.step (.respond i remote)).store.loading = true) ∨
      ((σ.step (.respond i remote)).inFlight.length + 1 = σ.inFlight.length ∧
        (σ.step (.respond i remote)).store.loading = false) := by
  have hget : σ.inFlight[i]? = some σ.inFlight[i] := List.getElem?_eq_getElem hi
  have hop : (σ.inFlight[i]).Suspended := h _ (List.getElem_mem hi)
  rcases advance_disciplined ((σ.inFlight[i]).resume remote) none σ.store
      (resume_suspended remote _ hop) (by simp) with ⟨hset, hl⟩ | ⟨_, hset, hl⟩
  · right
    simp only [Session.step, hget, hset, if_true, hl, and_true]
    rw [List.length_eraseIdx]
    simp [hi]
    omega
  · left
    simp [Session.step, hget, hset, hl]

/-- C20, as stated, fails: with the list loaded, a load and a remove are
started; when the remove is answered, the load is still in flight and the
loading flag is false. -/
theorem loading_false_while_load_in_flight :
    (Session.initial.steps overlapEvents).inFlight.map Async.awaits
        = [some (.getEmployees paramsEng)] ∧
      (Session.initial.steps overlapEvents).store.loading = false := by
  decide

/-- C20, amended: in every state reachable by interleaving the start and
completion events of load, create, remove and update on one store, the loading
flag is true right after an operation has started or has gone on to a further
request, and false right after an operation has completed, whether or not
other operations are still in flight: the flag tells what the most recent
event was, not whether an operation is in flight. -/
theorem loading_follows_last_event (events : List Event) :
    (∀ call,
        ((Session.initial.steps events).step (.start call)).store.loading = true ∧
          ((Session.initial.steps events).step (.start call)).inFlight.length
            = (Session.initial.steps events).inFlight.length + 1) ∧
      ∀ i remote, i < (Session.initial.steps events).inFlight.length →
        (((Session.initial.steps events).step (.respond i remote)).inFlight.length
              = (Session.initial.steps events).inFlight.length ∧
            ((Session.initial.steps events).step (.respond i remote)).store.loading = true) ∨
          (((Session.initial.steps events).step (.respond i remote)).inFlight.length + 1
              = (Session.initial.steps events).inFlight.length ∧
            ((Session.initial.steps events).step (.respond i remote)).store.loading = false) :=
  ⟨fun call => wellFormed_start _ call,
    fun i remote hi =>
      wellFormed_respond _ (steps_wellFormed events _ initial_wellFormed) i remote hi⟩

theorem loading_follows_last_event_witness :
    1 < (Session.initial.steps (overlapEvents.take 4)).inFlight.length ∧
      ((((Session.initial.steps (overlapEvents.take 4)).step
              (.respond 1 remoteFiltering)).inFlight.length
            = (Session.initial.steps (overlapEvents.take 4)).inFlight.length ∧
          ((Session.initial.steps (overlapEvents.take 4)).step
              (.respond 1 remoteFiltering)).store.loading = true) ∨
        (((Session.initial.steps (overlapEvents.take 4)).step
              (.respond 1 remoteFiltering)).inFlight.length + 1
            = (Session.initial.steps (overlapEvents.take 4)).inFlight.length ∧
          ((Session.initial.steps (overlapEvents.take 4)).step
              (.respond 1 remoteFiltering)).store.loading = false)) :=
  ⟨by decide,
    (loading_follows_last_event (overlapEvents.take 4)).2 1 remoteFiltering (by decide)⟩

/-- Without overlap the event semantics is the sequential one: a call that
starts on an idle store and has its requests answered leaves the store of the
completed call. -/
theorem session_agrees_with_run (s : Store) (remote : Remote) (call : Call) :
    ((Session.mk s []).steps [.start call, .respond 0 remote, .respond 0 remote]).store
        = s.step (call.toStep remote) ∧
      ((Session.mk s []).steps [.start call, .respond 0 remote, .respond 0 remote]).inFlight
        = [] := by
  cases call with
  | fetch params =>
      cases h : remote.getEmployees params <;>
        simp only [Call.toStep, Store.step, Store.fetch, fetch_run, h] <;>
        simp [Session.steps, Session.step, Call.toAsync, h, fetch, Async.advance,
          Async.resume, Async.settled, Async.bind_def, Async.pure_def, Async.bind,
          Async.tryCatch, Async.tryFinally, Async.settle, setLoading, setEmployees, setError,
          setCurrentParams, getEmployees]
  | create payload =>
      cases h : remote.addEmployee payload <;> cases h2 : remote.getEmployees s.currentParams <;>
        simp only [Call.toStep, Store.step, Store.create, create_run, h, h2] <;>
        simp [Session.steps, Session.step, Call.toAsync, h, h2, create, fetch, Async.discard,
          Async.advance, Async.resume, Async.settled, Async.bind_def, Async.pure_def,
          Async.bind, Async.tryCatch, Async.tryFinally, Async.settle, setLoading, setEmployees,
          setError, setCurrentParams, getEmployees, addEmployee]
  | remove id =>
      cases h : remote.deleteEmployee id <;>
        simp only [Call.toStep, Store.step, Store.remove, remove_run, h] <;>
        simp [Session.steps, Session.step, Call.toAsync, h, remove, Async.advance,
          Async.resume, Async.settled, Async.bind_def, Async.pure_def, Async.bind,
          Async.tryCatch, Async.tryFinally, Async.settle, setLoading, setEmployees, setError,
          setCurrentParams, deleteEmployee]
  | edit id payload =>
      cases h : remote.updateEmployee id payload <;>
        simp only [Call.toStep, Store.step, Store.edit, edit_run, h] <;>
        simp [Session.steps, Session.step, Call.toAsync, h, edit, Async.discard,
          Async.advance, Async.resume, Async.settled, Async.bind_def, Async.pure_def,
          Async.bind, Async.tryCatch, Async.tryFinally, Async.settle, setLoading, setEmployees,
          setError, setCurrentParams, updateEmployee]

/-! ## The employee table -/

theorem pageCount_eq_ceil {α : Type} (rows : List α) :
    (pageCount rows : ℤ) = ⌈(rows.length : ℚ) / 5⌉ := by
  symm
  rw [Int.ceil_eq_iff]
  have h1 : 5 * pageCount rows ≤ rows.length + 4 := by
    unfold pageCount pageSize; omega
  have h2 : rows.length ≤ 5 * pageCount rows := by
    unfold pageCount pageSize; omega
  have h1q : (5 : ℚ) * (pageCount rows : ℚ) ≤ (rows.length : ℚ) + 4 := by exact_mod_cast h1
  have h2q : (rows.length : ℚ) ≤ 5 * (pageCount rows : ℚ) := by exact_mod_cast h2
  constructor
  · rw [lt_div_iff₀ (by norm_num)]
    push_cast
    linarith
  · rw [div_le_iff₀ (by norm_num)]
    push_cast
    linarith

theorem sortedRows_perm (order : Column → Employee → Employee → Bool) (sortBy : SortBy)
    (rows : List Employee) : (sortedRows order sortBy rows).Perm rows := by
  unfold sortedRows
  split
  · exact List.Perm.refl _
  · exact List.perm_insertionSort _ _
  · exact List.perm_insertionSort _ _

theorem sortedRows_length (order : Column → Employee → Employee → Bool) (sortBy : SortBy)
    (rows : List Employee) : (sortedRows order sortBy rows).length = rows.length :=
  (sortedRows_perm order sortBy rows).length_eq

/-- C14: for every record list of length n and the page size 5, under any sort
state: the number of pages is the ceiling of n/5; page k (from 0, below the
page count) shows min(5, n - 5k) rows; canPreviousPage holds iff k > 0;
canNextPage holds iff k is not the last page. -/
theorem table_pages (order : Column → Employee → Employee → Bool) (rows : List Employee)
    (state : TableState)
    (hk : state.pageIndex < (EmployeeTable order (some rows) state).pageCount) :
    ((EmployeeTable order (some rows) state).pageCount : ℤ) = ⌈(rows.length : ℚ) / 5⌉ ∧
      (EmployeeTable order (some rows) state).page.length
        = min 5 (rows.length - 5 * state.pageIndex) ∧
      ((EmployeeTable order (some rows) state).canPreviousPage = true ↔ 0 < state.pageIndex) ∧
      ((EmployeeTable order (some rows) state).canNextPage = true ↔
        state.pageIndex ≠ (EmployeeTable order (some rows) state).pageCount - 1) := by
  have hlen := sortedRows_length order state.sortBy rows
  refine ⟨?_, ?_, ?_, ?_⟩
  · rw [← hlen]
    exact pageCount_eq_ceil _
  · simp [EmployeeTable, page, tableData, pageSize, hlen]
  · simp [EmployeeTable, canPreviousPage]
  · simp only [EmployeeTable, canNextPage, decide_eq_true_eq] at hk ⊢
    omega

/-- Scenario of C14: 12 records give 3 pages, no previous page on page 1, no
next page on page 3, and 2 rows on page 3. -/
theorem table_pages_witness :
    (2 < (EmployeeTable lexicalOrder (some twelveRecords) ⟨none, 2⟩).pageCount ∧
        (((EmployeeTable lexicalOrder (some twelveRecords) ⟨none, 2⟩).pageCount : ℤ)
            = ⌈(twelveRecords.length : ℚ) / 5⌉ ∧
          (EmployeeTable lexicalOrder (some twelveRecords) ⟨none, 2⟩).page.length
            = min 5 (twelveRecords.length - 5 * 2) ∧
          ((EmployeeTable lexicalOrder (some twelveRecords) ⟨none, 2⟩).canPreviousPage = true ↔
            0 < 2) ∧
          ((EmployeeTable lexicalOrder (some twelveRecords) ⟨none, 2⟩).canNextPage = true ↔
            2 ≠ (EmployeeTable lexicalOrder (some twelveRecords) ⟨none, 2⟩).pageCount - 1))) ∧
      (EmployeeTable lexicalOrder (some twelveRecords) ⟨none, 0⟩).pageCount = 3 ∧
      (EmployeeTable lexicalOrder (some twelveRecords) ⟨none, 0⟩).canPreviousPage = false ∧
      (EmployeeTable lexicalOrder (some twelveRecords) ⟨none, 2⟩).canNextPage = false ∧
      (EmployeeTable lexicalOrder (some twelveRecords) ⟨none, 2⟩).page.length = 2 :=
  ⟨⟨by decide, table_pages lexicalOrder twelveRecords ⟨none, 2⟩ (by decide)⟩,
    by decide, by decide, by decide, by decide⟩

/-- First render of the table with `null`/`undefined` or the empty list as its
data, on the first page: zero data rows, no page, both pagination buttons
disabled. -/
theorem empty_table_first_render (order : Column → Employee → Employee → Bool)
    (sortBy : SortBy) :
    EmployeeTable order none ⟨sortBy, 0⟩
        = { page := [], pageCount := 0, canPreviousPage := false, canNextPage := false } ∧
      EmployeeTable order (some []) ⟨sortBy, 0⟩
        = { page := [], pageCount := 0, canPreviousPage := false, canNextPage := false } := by
  have hs : sortedRows order sortBy [] = [] := by
    unfold sortedRows
    split <;> rfl
  refine ⟨?_, ?_⟩ <;>
    simp [EmployeeTable, tableData, hs, page, pageCount, canPreviousPage, canNextPage,
      pageSize]

/-- C15, a defect of the code: with `null` or `undefined` as its data, the
component hands `useTable` an array that is a new object at every render (the
literal of `data || []`), never the array of the render before, whereas an
array passed as the prop, empty or not, is the same object from render to
render.  The table therefore sees its data change at every render of a table
that was given no data. -/
theorem null_data_is_new_array_each_render :
    (∀ render, tableDataIdentity (render + 1) none ≠ tableDataIdentity render none) ∧
      (∀ m n, tableDataIdentity m none = tableDataIdentity n none → m = n) ∧
      (∀ array m n, tableDataIdentity m (some array) = tableDataIdentity n (some array)) ∧
      tableData none = [] := by
  refine ⟨fun render h => ?_, fun m n h => ?_, fun array m n => rfl, rfl⟩
  · simp [tableDataIdentity] at h
  · simpa [tableDataIdentity] using h

/-- C16: for every record list and every sortable column: from the unsorted
state, selecting the header once sorts ascending by the column, a second time
descending, a third time returns to unsorted; selecting another sortable
column replaces the active sort column; and in every sort state the view is a
permutation of the record list, which the unsorted view hands back as it
is. -/
theorem sort_toggle_cycle (order : Column → Employee → Employee → Bool) (rows : List Employee)
    (col : Column) (hcol : col.disableSortBy = false)
    (htotal : ∀ a b, order col a b = true ∨ order col b a = true)
    (htrans : ∀ a b c, order col a b = true → order col b c = true → order col a c = true) :
    (toggleSortBy col none = some (col, false) ∧
        (sortedRows order (toggleSortBy col none) rows).Sorted
          (fun a b => order col a b = true)) ∧
      (toggleSortBy col (toggleSortBy col none) = some (col, true) ∧
        (sortedRows order (toggleSortBy col (toggleSortBy col none)) rows).Sorted
          (fun a b => order col b a = true)) ∧
      (toggleSortBy col (toggleSortBy col (toggleSortBy col none)) = none ∧
        sortedRows order (toggleSortBy col (toggleSortBy col (toggleSortBy col none))) rows
          = rows) ∧
      (∀ other desc, other ≠ col → toggleSortBy col (some (other, desc)) = some (col, false)) ∧
      ∀ sortBy, (sortedRows order sortBy rows).Perm rows := by
  have t1 : toggleSortBy col none = some (col, false) := by simp [toggleSortBy, hcol]
  have t2 : toggleSortBy col (some (col, false)) = some (col, true) := by
    simp [toggleSortBy, hcol]
  have t3 : toggleSortBy col (some (col, true)) = none := by simp [toggleSortBy, hcol]
  haveI : IsTotal Employee (fun a b => order col a b = true) := ⟨htotal⟩
  haveI : IsTrans Employee (fun a b => order col a b = true) := ⟨htrans⟩
  haveI : IsTotal Employee (fun a b => order col b a = true) := ⟨fun a b => (htotal a b).symm⟩
  haveI : IsTrans Employee (fun a b => order col b a = true) :=
    ⟨fun a b c hab hbc => htrans c b a hbc hab⟩
  refine ⟨⟨t1, ?_⟩, ⟨by rw [t1, t2], ?_⟩, ⟨by rw [t1, t2, t3], ?_⟩, ?_, ?_⟩
  · rw [t1]
    exact List.sorted_insertionSort (fun a b => order col a b = true) rows
  · rw [t1, t2]
    exact List.sorted_insertionSort (fun a b => order col b a = true) rows
  · rw [t1, t2, t3]
    rfl
  · intro other desc hne
    simp [toggleSortBy, hcol, hne]
  · intro sortBy
    exact sortedRows_perm order sortBy rows

theorem sort_toggle_cycle_witness :
    Column.name.disableSortBy = false ∧
      (toggleSortBy .name none = some (.name, false) ∧
        (sortedRows lexicalOrder (toggleSortBy .name none) [recordB, recordA]).Sorted
          (fun a b => lexicalOrder .name a b = true)) ∧
      (toggleSortBy .name (toggleSortBy .name none) = some (.name, true) ∧
        (sortedRows lexicalOrder (toggleSortBy .name (toggleSortBy .name none))
          [recordB, recordA]).Sorted (fun a b => lexicalOrder .name b a = true)) ∧
      (toggleSortBy .name (toggleSortBy .name (toggleSortBy .name none)) = none ∧
        sortedRows lexicalOrder
            (toggleSortBy .name (toggleSortBy .name (toggleSortBy .name none)))
            [recordB, recordA]
          = [recordB, recordA]) ∧
      (∀ other desc, other ≠ Column.name →
        toggleSortBy .name (some (other, desc)) = some (.name, false)) ∧
      ∀ sortBy, (sortedRows lexicalOrder sortBy [recordB, recordA]).Perm [recordB, recordA] :=
  ⟨rfl,
    sort_toggle_cycle lexicalOrder [recordB, recordA] .name rfl
      (fun a b => by
        simp only [lexicalOrder, decide_eq_true_eq]
        exact le_total _ _)
      (fun a b c hab hbc => by
        simp only [lexicalOrder, decide_eq_true_eq] at hab hbc ⊢
        exact le_trans hab hbc)⟩

/-- C18: for every row, a click on its edit button calls `onEdit` exactly once,
with the full original record of the row, and a click on its delete button
calls `onDelete` exactly once, with the id of that record and nothing else;
the id passed does not depend on the number the row displays. -/
theorem row_actions (row : Row) :
    editClick true row = [.onEdit row.original] ∧
      deleteClick true row = .ok [.onDelete row.original.id] ∧
      ∀ j, deleteClick true { row with index := j } = deleteClick true row := by
  refine ⟨rfl, rfl, fun j => rfl⟩

/-- C19: for every current page index p and every new record list of length at
most 5p, a mounted table that receives the list is put on the first page, which
is within the pages of the new list (or the list is empty and there is no
page), and it shows the first window of the list; a table that the Employees
page mounts again after a loading phase starts on the first page too.  The
functions are total: no error is raised. -/
theorem shrunk_list_resets_page (order : Column → Employee → Employee → Bool)
    (state : TableState) (rows : List Employee) (store : Store)
    (h : rows.length ≤ 5 * state.pageIndex) :
    (state.receive order (some rows)).pageIndex = 0 ∧
      ((state.receive order (some rows)).pageIndex
          < (EmployeeTable order (some rows) (state.receive order (some rows))).pageCount ∨
        rows = []) ∧
      (EmployeeTable order (some rows) (state.receive order (some rows))).page
        = (sortedRows order state.sortBy rows).take 5 ∧
      employeesTable order { store with loading := false, employees := rows } (some state)
        = some { state with pageIndex := 0 } ∧
      employeesTable order { store with loading := false, employees := rows } none
        = some TableState.initial := by
  have hlen := sortedRows_length order state.sortBy rows
  have h0 : (state.receive order (some rows)).pageIndex = 0 := by
    simp only [TableState.receive, resetPage, tableData, Option.getD_some, hlen, pageSize]
    rw [if_neg (by omega)]
  have hst : state.receive order (some rows) = { state with pageIndex := 0 } := by
    simp only [TableState.receive, resetPage, tableData, Option.getD_some, hlen, pageSize]
    rw [if_neg (by omega)]
  refine ⟨h0, ?_, ?_, ?_, ?_⟩
  · rw [h0]
    rcases rows with _ | ⟨e, rest⟩
    · right; rfl
    · left
      simp only [EmployeeTable, pageCount, pageSize, tableData, Option.getD_some,
        sortedRows_length, hst, List.length_cons]
      omega
  · rw [hst]
    simp [EmployeeTable, page, tableData, pageSize]
  · simp only [employeesTable, Bool.false_eq_true, if_false, hst]
  · simp [employeesTable]

theorem shrunk_list_resets_page_witness :
    [recordA, recordB].length ≤ 5 * (TableState.mk none 2).pageIndex ∧
      ((TableState.mk none 2).receive lexicalOrder (some [recordA, recordB])).pageIndex = 0 ∧
      (((TableState.mk none 2).receive lexicalOrder (some [recordA, recordB])).pageIndex
          < (EmployeeTable lexicalOrder (some [recordA, recordB])
              ((TableState.mk none 2).receive lexicalOrder (some [recordA, recordB]))).pageCount ∨
        [recordA, recordB] = []) ∧
      (EmployeeTable lexicalOrder (some [recordA, recordB])
          ((TableState.mk none 2).receive lexicalOrder (some [recordA, recordB]))).page
        = (sortedRows lexicalOrder (TableState.mk none 2).sortBy [recordA, recordB]).take 5 ∧
      employeesTable lexicalOrder
          { storeEng with loading := false, employees := [recordA, recordB] }
          (some (TableState.mk none 2))
        = some { TableState.mk none 2 with pageIndex := 0 } ∧
      employeesTable lexicalOrder
          { storeEng with loading := false, employees := [recordA, recordB] } none
        = some TableState.initial :=
  ⟨by decide, shrunk_list_resets_page lexicalOrder ⟨none, 2⟩ [recordA, recordB] storeEng
    (by decide)⟩

/-! ## Overlapping operations: loads and writes -/

theorem start_fetch_inFlight (σ : Session) (p : Params) :
    (σ.step (.start (.fetch p))).inFlight = σ.inFlight ++ [fetchInFlight p] := rfl

/-- C21, as stated, fails: with `[A, B]` loaded, a load is started, then a
remove of record 1, which succeeds and leaves `[B]`; when the answer of the
load, computed by the server before the delete, is applied, record 1 is in the
local list again. -/
theorem remove_lost_after_stale_load :
    remoteFiltering.deleteEmployee (.num 1) = .ok () ∧
      (Session.initial.steps overlapEvents).store.employees.map (fun e => e.id) = [.num 2] ∧
      (Session.initial.steps lostRemoveEvents).inFlight.length = 0 ∧
      (Session.initial.steps lostRemoveEvents).store.employees.map (fun e => e.id)
        = [.num 1] :=
  ⟨rfl, by decide, by decide, by decide⟩

/-- C21, amended: in every interleaving, when the response of a load in flight
is applied, the local list is exactly the list the response carries and the
remembered params are those of that load, whatever a remove, update or create
wrote in the meantime: the write stays reflected only if the server's answer
reflects it; when the load fails the list is the one the write left. -/
theorem overlapped_load_answer_wins (σ : Session) (i : Nat) (p : Params) (remote : Remote)
    (h : σ.inFlight[i]? = some (fetchInFlight p)) :
    (∀ l, remote.getEmployees p = .ok l →
        (σ.step (.respond i remote)).store.employees = l ∧
          (σ.step (.respond i remote)).store.currentParams = p) ∧
      ∀ err, remote.getEmployees p = .error err →
        (σ.step (.respond i remote)).store.employees = σ.store.employees := by
  refine ⟨fun l hl => ?_, fun err herr => ?_⟩
  · simp [Session.step, h, fetchInFlight, fetch, Async.advance, Async.resume, Async.bind_def,
      Async.pure_def, Async.bind, Async.tryCatch, Async.tryFinally, Async.settle, setLoading,
      setEmployees, setError, setCurrentParams, getEmployees, hl]
  · simp [Session.step, h, fetchInFlight, fetch, Async.advance, Async.resume, Async.bind_def,
      Async.pure_def, Async.bind, Async.tryCatch, Async.tryFinally, Async.settle, setLoading,
      setEmployees, setError, setCurrentParams, getEmployees, herr]

theorem overlapped_load_answer_wins_witness :
    (Session.initial.steps overlapEvents).inFlight[0]? = some (fetchInFlight paramsEng) ∧
      ((Session.initial.steps overlapEvents).step (.respond 0 remoteFiltering)).store.employees
        = [recordA] ∧
      ((Session.initial.steps overlapEvents).step
        (.respond 0 remoteFiltering)).store.currentParams = paramsEng :=
  ⟨rfl, (overlapped_load_answer_wins (Session.initial.steps overlapEvents) 0 paramsEng
    remoteFiltering rfl).1 [recordA] rfl⟩

/-- C25: for two loads started one after the other on an idle store, whose
requests overlap and both succeed, the record list and the remembered params
after both have completed are those of the load answered last: of the second
when the first is answered first, of the first when the second is answered
first. -/
theorem last_response_wins (s : Store) (p1 p2 : Params) (r1 r2 : Remote)
    (l1 l2 : List Employee) (h1 : r1.getEmployees p1 = .ok l1)
    (h2 : r2.getEmployees p2 = .ok l2) :
    (((Session.mk s []).steps [.start (.fetch p1), .start (.fetch p2), .respond 0 r1,
            .respond 0 r2]).store.employees = l2 ∧
        ((Session.mk s []).steps [.start (.fetch p1), .start (.fetch p2), .respond 0 r1,
            .respond 0 r2]).store.currentParams = p2 ∧
        ((Session.mk s []).steps [.start (.fetch p1), .start (.fetch p2), .respond 0 r1,
            .respond 0 r2]).inFlight.length = 0) ∧
      (((Session.mk s []).steps [.start (.fetch p1), .start (.fetch p2), .respond 1 r2,
            .respond 0 r1]).store.employees = l1 ∧
        ((Session.mk s []).steps [.start (.fetch p1), .start (.fetch p2), .respond 1 r2,
            .respond 0 r1]).store.currentParams = p1 ∧
        ((Session.mk s []).steps [.start (.fetch p1), .start (.fetch p2), .respond 1 r2,
            .respond 0 r1]).inFlight.length = 0) := by
  simp [Session.steps, Session.step, Call.toAsync, fetch, Async.advance, Async.resume,
    Async.settled, Async.bind_def, Async.pure_def, Async.bind, Async.tryCatch,
    Async.tryFinally, Async.settle, setLoading, setEmployees, setError, setCurrentParams,
    getEmployees, h1, h2]

theorem last_response_wins_witness :
    remoteFiltering.getEmployees Params.empty = .ok [recordA, recordB] ∧
      remoteFiltering.getEmployees paramsEng = .ok [recordA] ∧
      (((Session.mk Store.initial []).steps [.start (.fetch Params.empty),
            .start (.fetch paramsEng), .respond 0 remoteFiltering,
            .respond 0 remoteFiltering]).store.employees = [recordA] ∧
        ((Session.mk Store.initial []).steps [.start (.fetch Params.empty),
            .start (.fetch paramsEng), .respond 0 remoteFiltering,
            .respond 0 remoteFiltering]).store.currentParams = paramsEng ∧
        ((Session.mk Store.initial []).steps [.start (.fetch Params.empty),
            .start (.fetch paramsEng), .respond 0 remoteFiltering,
            .respond 0 remoteFiltering]).inFlight.length = 0) ∧
      (((Session.mk Store.initial []).steps [.start (.fetch Params.empty),
            .start (.fetch paramsEng), .respond 1 remoteFiltering,
            .respond 0 remoteFiltering]).store.employees = [recordA, recordB] ∧
        ((Session.mk Store.initial []).steps [.start (.fetch Params.empty),
            .start (.fetch paramsEng), .respond 1 remoteFiltering,
            .respond 0 remoteFiltering]).store.currentParams = Params.empty ∧
        ((Session.mk Store.initial []).steps [.start (.fetch Params.empty),
            .start (.fetch paramsEng), .respond 1 remoteFiltering,
            .respond 0 remoteFiltering]).inFlight.length = 0) :=
  ⟨rfl, rfl,
    last_response_wins Store.initial Params.empty paramsEng remoteFiltering remoteFiltering
      [recordA, recordB] [recordA] rfl rfl⟩

/-! ## The add/edit form: the email pattern -/

theorem mem_charClass (cs : List Char) (x : List Char) :
    x ∈ (charClass cs).matches' ↔ ∃ c ∈ cs, x = [c] := by
  induction cs with
  | nil =>
      simp only [charClass, List.foldr_nil, RegularExpression.matches'_zero, List.not_mem_nil,
        false_and, exists_false, iff_false]
      exact fun h => h
  | cons a rest ih =>
      have hunf : charClass (a :: rest) = RegularExpression.char a + charClass rest := rfl
      rw [hunf, RegularExpression.matches'_add, Language.mem_add, ih,
        RegularExpression.matches'_char]
      constructor
      · rintro (h | ⟨c, hc, rfl⟩)
        · exact ⟨a, List.mem_cons_self _ _, h⟩
        · exact ⟨c, List.mem_cons_of_mem _ hc, rfl⟩
      · rintro ⟨c, hc, rfl⟩
        rcases List.mem_cons.mp hc with rfl | hc
        · exact Or.inl rfl
        · exact Or.inr ⟨c, hc, rfl⟩

theorem mem_star_charClass (cs : List Char) (x : List Char) :
    x ∈ KStar.kstar (charClass cs).matches' ↔ ∀ c ∈ x, c ∈ cs := by
  rw [Language.mem_kstar]
  constructor
  · rintro ⟨L, rfl, hL⟩ c hc
    obtain ⟨y, hy, hcy⟩ := List.mem_flatten.mp hc
    obtain ⟨d, hd, rfl⟩ := (mem_charClass cs y).mp (hL y hy)
    rw [List.mem_singleton] at hcy
    subst hcy
    exact hd
  · intro h
    refine ⟨x.map (fun c => [c]), ?_, ?_⟩
    · induction x with
      | nil => rfl
      | cons a rest ih =>
          simp only [List.map_cons, List.flatten_cons, List.singleton_append]
          rw [← ih (fun c hc => h c (List.mem_cons_of_mem _ hc))]
    · intro y hy
      obtain ⟨c, hc, rfl⟩ := List.mem_map.mp hy
      exact (mem_charClass cs [c]).mpr ⟨c, h c hc, rfl⟩

theorem mem_oneOrMore (cs : List Char) (x : List Char) :
    x ∈ (oneOrMore (charClass cs)).matches' ↔ x ≠ [] ∧ ∀ c ∈ x, c ∈ cs := by
  unfold oneOrMore
  rw [RegularExpression.matches'_mul, RegularExpression.matches'_star, Language.mem_mul]
  constructor
  · rintro ⟨a, ha, b, hb, rfl⟩
    obtain ⟨c, hc, rfl⟩ := (mem_charClass cs a).mp ha
    refine ⟨by simp, ?_⟩
    intro d hd
    rcases List.mem_append.mp hd with h1 | h1
    · rw [List.mem_singleton] at h1
      subst h1
      exact hc
    · exact (mem_star_charClass cs b).mp hb d h1
  · rintro ⟨hne, h⟩
    rcases x with _ | ⟨a, rest⟩
    · exact absurd rfl hne
    · exact ⟨[a], (mem_charClass cs [a]).mpr ⟨a, h a (List.mem_cons_self _ _), rfl⟩, rest,
        (mem_star_charClass cs rest).mpr (fun c hc => h c (List.mem_cons_of_mem _ hc)), rfl⟩

theorem mem_twoOrMore (cs : List Char) (x : List Char) :
    x ∈ (twoOrMore (charClass cs)).matches' ↔ 2 ≤ x.length ∧ ∀ c ∈ x, c ∈ cs := by
  have hunf : twoOrMore (charClass cs) = charClass cs * oneOrMore (charClass cs) := rfl
  rw [hunf, RegularExpression.matches'_mul, Language.mem_mul]
  constructor
  · rintro ⟨a, ha, b, hb, rfl⟩
    obtain ⟨c, hc, rfl⟩ := (mem_charClass cs a).mp ha
    obtain ⟨hne, hb2⟩ := (mem_oneOrMore cs b).mp hb
    refine ⟨?_, ?_⟩
    · rcases b with _ | ⟨b0, brest⟩
      · exact absurd rfl hne
      · simp
    · intro d hd
      rcases List.mem_append.mp hd with h1 | h1
      · rw [List.mem_singleton] at h1
        subst h1
        exact hc
      · exact hb2 d h1
  · rintro ⟨hlen, h⟩
    rcases x with _ | ⟨a, rest⟩
    · simp at hlen
    · refine ⟨[a], (mem_charClass cs [a]).mpr ⟨a, h a (List.mem_cons_self _ _), rfl⟩, rest,
        (mem_oneOrMore cs rest).mpr ⟨?_, fun c hc => h c (List.mem_cons_of_mem _ hc)⟩, rfl⟩
      rintro rfl
      simp at hlen

theorem char_le_iff (a b : Char) : a ≤ b ↔ a.toNat ≤ b.toNat := Iff.rfl

theorem mem_range_AZ (c : Char) : c ∈ charRange 'A' 'Z' ↔ ('A' ≤ c ∧ c ≤ 'Z') := by
  rw [char_le_iff, char_le_iff]
  constructor
  · intro h
    simp only [charRange, List.mem_map, List.mem_range] at h
    obtain ⟨i, hi, rfl⟩ := h
    have hi2 : i < 26 := hi
    interval_cases i <;> decide
  · rintro ⟨h1, h2⟩
    have h1n : 65 ≤ c.toNat := h1
    have h2n : c.toNat ≤ 90 := h2
    rw [← Char.ofNat_toNat c]
    generalize c.toNat = n at h1n h2n
    interval_cases n <;> decide

theorem mem_range_az (c : Char) : c ∈ charRange 'a' 'z' ↔ ('a' ≤ c ∧ c ≤ 'z') := by
  rw [char_le_iff, char_le_iff]
  constructor
  · intro h
    simp only [charRange, List.mem_map, List.mem_range] at h
    obtain ⟨i, hi, rfl⟩ := h
    have hi2 : i < 26 := hi
    interval_cases i <;> decide
  · rintro ⟨h1, h2⟩
    have h1n : 97 ≤ c.toNat := h1
    have h2n : c.toNat ≤ 122 := h2
    rw [← Char.ofNat_toNat c]
    generalize c.toNat = n at h1n h2n
    interval_cases n <;> decide

theorem mem_range_09 (c : Char) : c ∈ charRange '0' '9' ↔ isDigit c := by
  unfold isDigit
  rw [char_le_iff, char_le_iff]
  constructor
  · intro h
    simp only [charRange, List.mem_map, List.mem_range] at h
    obtain ⟨i, hi, rfl⟩ := h
    have hi2 : i < 10 := hi
    interval_cases i <;> decide
  · rintro ⟨h1, h2⟩
    have h1n : 48 ≤ c.toNat := h1
    have h2n : c.toNat ≤ 57 := h2
    rw [← Char.ofNat_toNat c]
    generalize c.toNat = n at h1n h2n
    interval_cases n <;> decide

theorem mem_lettersClass (c : Char) : c ∈ lettersClass ↔ isLetter c := by
  unfold lettersClass isLetter
  rw [List.mem_append, mem_range_AZ, mem_range_az]

theorem mem_localClass (c : Char) :
    c ∈ localClass ↔ (isLetter c ∨ isDigit c ∨ c ∈ ['.', '_', '%', '+', '-']) := by
  unfold localClass
  rw [List.mem_append, List.mem_append, mem_lettersClass, mem_range_09, or_assoc]

theorem mem_domainClass (c : Char) :
    c ∈ domainClass ↔ (isLetter c ∨ isDigit c ∨ c ∈ ['.', '-']) := by
  unfold domainClass
  rw [List.mem_append, List.mem_append, mem_lettersClass, mem_range_09, or_assoc]

theorem emailTest_iff (email : String) : emailTest email = true ↔ EmailShape email := by
  unfold emailTest EmailShape emailPattern
  rw [RegularExpression.rmatch_iff_matches']
  simp only [RegularExpression.matches'_mul, RegularExpression.matches'_char]
  constructor
  · intro h
    obtain ⟨loc, hloc, r1, hr1, h1⟩ := Language.mem_mul.mp h
    obtain ⟨at1, hat, r2, hr2, h2⟩ := Language.mem_mul.mp hr1
    obtain ⟨dom, hdom, r3, hr3, h3⟩ := Language.mem_mul.mp hr2
    obtain ⟨dot, hdot, tld, htld, h4⟩ := Language.mem_mul.mp hr3
    have hat2 : at1 = ['@'] := hat
    have hdot2 : dot = ['.'] := hdot
    subst hat2 hdot2
    obtain ⟨hl1, hl2⟩ := (mem_oneOrMore localClass loc).mp hloc
    obtain ⟨hd1, hd2⟩ := (mem_oneOrMore domainClass dom).mp hdom
    obtain ⟨ht1, ht2⟩ := (mem_twoOrMore lettersClass tld).mp htld
    refine ⟨loc, dom, tld, ?_, hl1, fun c hc => (mem_localClass c).mp (hl2 c hc), hd1,
      fun c hc => (mem_domainClass c).mp (hd2 c hc), ht1,
      fun c hc => (mem_lettersClass c).mp (ht2 c hc)⟩
    rw [← h1, ← h2, ← h3, ← h4]
    rfl
  · rintro ⟨loc, dom, tld, heq, hl1, hl2, hd1, hd2, ht1, ht2⟩
    rw [heq]
    refine Language.mem_mul.mpr ⟨loc, (mem_oneOrMore localClass loc).mpr
      ⟨hl1, fun c hc => (mem_localClass c).mpr (hl2 c hc)⟩, _, ?_, rfl⟩
    refine Language.mem_mul.mpr ⟨['@'], rfl, _, ?_, rfl⟩
    refine Language.mem_mul.mpr ⟨dom, (mem_oneOrMore domainClass dom).mpr
      ⟨hd1, fun c hc => (mem_domainClass c).mpr (hd2 c hc)⟩, _, ?_, rfl⟩
    exact Language.mem_mul.mpr ⟨['.'], rfl, tld, (mem_twoOrMore lettersClass tld).mpr
      ⟨ht1, fun c hc => (mem_lettersClass c).mpr (ht2 c hc)⟩, rfl⟩
theorem payloadC_emailShape : EmailShape payloadC.email := by
  refine ⟨['c'], "example".toList, "com".toList, rfl, by simp, ?_, by decide, ?_, by decide, ?_⟩
  · intro c hc
    exact (mem_localClass c).mp (by revert c; decide)
  · intro c hc
    exact (mem_domainClass c).mp (by revert c; decide)
  · intro c hc
    exact (mem_lettersClass c).mp (by revert c; decide)

/-- C22: submitting the form calls `onSubmit`, once and with the form's five
fields, if and only if all five fields are non-empty and the email has the
shape one or more of `[A-Z0-9._%+-]`, `@`, one or more of `[A-Z0-9.-]`, `.`,
two or more letters, in either case; otherwise `onSubmit` is not called; the
email error is "Required" for an empty email and "Invalid" for a non-empty one
that does not have the shape. -/
theorem form_submit_iff_valid (form : Payload) :
    ((formHandleSubmit form).onSubmit = [form] ↔
        (form.name ≠ "" ∧ form.email ≠ "" ∧ form.designation ≠ "" ∧ form.department ≠ "" ∧
          form.joiningDate ≠ "" ∧ EmailShape form.email)) ∧
      (¬ (form.name ≠ "" ∧ form.email ≠ "" ∧ form.designation ≠ "" ∧ form.department ≠ "" ∧
          form.joiningDate ≠ "" ∧ EmailShape form.email) →
        (formHandleSubmit form).onSubmit = []) ∧
      (form.email = "" → (formHandleSubmit form).errors.email = some "Required") ∧
      (form.email ≠ "" → ¬ EmailShape form.email →
        (formHandleSubmit form).errors.email = some "Invalid") := by
  rw [← emailTest_iff]
  by_cases h1 : form.name = "" <;> by_cases h2 : form.email = "" <;>
    by_cases h3 : form.designation = "" <;> by_cases h4 : form.department = "" <;>
    by_cases h5 : form.joiningDate = "" <;> cases ht : emailTest form.email <;>
    simp [formHandleSubmit, validate, FormErrors.keys, h1, h2, h3, h4, h5, ht]

theorem form_submit_iff_valid_witness :
    (formHandleSubmit payloadC).onSubmit = [payloadC] :=
  (form_submit_iff_valid payloadC).1.mpr
    ⟨by decide, by decide, by decide, by decide, by decide, payloadC_emailShape⟩

/-! ## Date rendering, filters, saving, and the last error -/

/-- C23: `formatDate` returns the empty string for an input that is not
provided (`undefined`, `null`, the empty string), and for no non-empty string
does it return the empty string, the runtime's rendering of a date never being
empty (an invalid date renders as "Invalid Date"). -/
theorem formatDate_empty_iff_not_provided (parse : String → Option Int) (format : Int → String)
    (hformat : ∀ t, format t ≠ "") :
    formatDate parse format none = "" ∧ formatDate parse format (some "") = "" ∧
      ∀ iso, iso ≠ "" → formatDate parse format (some iso) ≠ "" := by
  refine ⟨rfl, rfl, fun iso hiso => ?_⟩
  simp only [formatDate, hiso, if_false]
  cases parse iso with
  | none => simp [toLocaleDateString]
  | some t => exact hformat t

theorem formatDate_empty_iff_not_provided_witness :
    (∀ t, formatExample t ≠ "") ∧
      formatDate parseExample formatExample none = "" ∧
      formatDate parseExample formatExample (some "") = "" ∧
      ∀ iso, iso ≠ "" → formatDate parseExample formatExample (some iso) ≠ "" :=
  ⟨fun _ => (by decide : "8/9/2025" ≠ ""),
    formatDate_empty_iff_not_provided parseExample formatExample
      (fun _ => (by decide : "8/9/2025" ≠ ""))⟩

/-- C24: when the department filter or the search text of the Employees page
changes, the filter effect starts exactly one load, whose params hold the key
`department`, with value `dept`, iff `dept` is non-empty, and the key `q`, with
value `search`, iff `search` is non-empty (the params object has no other
key); with both empty the params are the empty object. -/
theorem filter_effect_params (previous : String × String) (dept search : String) (n : Nat)
    (h : previous ≠ (dept, search)) :
    employeesEffects (some previous) dept search (n + 1)
        = [Call.fetch (filterParams dept search)] ∧
      ((filterParams dept search).department = some dept ↔ dept ≠ "") ∧
      ((filterParams dept search).department = none ↔ dept = "") ∧
      ((filterParams dept search).q = some search ↔ search ≠ "") ∧
      ((filterParams dept search).q = none ↔ search = "") ∧
      filterParams "" "" = Params.empty := by
  refine ⟨?_, ?_, ?_, ?_, ?_, rfl⟩
  · simp [employeesEffects, useEmployeesEffects, useEffect, fetchIdentity, h]
  · by_cases hd : dept = "" <;> simp [filterParams, hd]
  · by_cases hd : dept = "" <;> simp [filterParams, hd]
  · by_cases hs : search = "" <;> simp [filterParams, hs]
  · by_cases hs : search = "" <;> simp [filterParams, hs]

theorem filter_effect_params_witness :
    (("", "") : String × String) ≠ ("Eng", "") ∧
      employeesEffects (some ("", "")) "Eng" "" 1 = [Call.fetch paramsEng] :=
  ⟨by decide, (filter_effect_params ("", "") "Eng" "" 0 (by decide)).1⟩

/-- C26, a defect of the code: with the employee of id 0 selected for editing,
the modal is titled "Edit Employee", and a submitted payload goes to `create`,
which posts a new record, not to `edit(0, payload)`. -/
theorem save_with_zero_id_creates :
    (pageHandleSubmit remoteFiltering storeAB ⟨true, some recordZero⟩ payloadC).calls
        = [Call.create payloadC] ∧
      (pageHandleSubmit remoteFiltering storeAB ⟨true, some recordZero⟩ payloadC).calls
        ≠ [Call.edit recordZero.id payloadC] ∧
      modalTitle (some recordZero) = "Edit Employee" := by
  decide

/-- What `handleSubmit` of the page calls: `edit(editing.id, payload)` when an
employee is selected and its id is truthy, `create(payload)` otherwise.  If
the called operation resolves, the modal is closed and the selection cleared;
if it rejects, the modal and the selection are as before. -/
theorem save_calls_edit_or_create (remote : Remote) (s : Store) (page : PageState)
    (payload : Payload) :
    (∀ e, page.editing = some e → e.id.truthy = true →
        (pageHandleSubmit remote s page payload).calls = [.edit e.id payload] ∧
          (∀ r, (s.edit remote e.id payload).result = .ok r →
            (pageHandleSubmit remote s page payload).page
              = { modalOpen := false, editing := none }) ∧
          ∀ err, (s.edit remote e.id payload).result = .error err →
            (pageHandleSubmit remote s page payload).page = page) ∧
      ((∀ e, page.editing = some e → e.id.truthy = false) →
        (pageHandleSubmit remote s page payload).calls = [.create payload] ∧
          (∀ r, (s.create remote payload).result = .ok r →
            (pageHandleSubmit remote s page payload).page
              = { modalOpen := false, editing := none }) ∧
          ∀ err, (s.create remote payload).result = .error err →
            (pageHandleSubmit remote s page payload).page = page) := by
  constructor
  · intro e he ht
    cases hr : (s.edit remote e.id payload).result <;>
      simp [pageHandleSubmit, saved, editingWithId, he, ht, hr]
  · intro h
    cases he : page.editing with
    | none =>
        cases hr : (s.create remote payload).result <;>
          simp [pageHandleSubmit, saved, he, hr]
    | some e =>
        have ht := h e he
        cases hr : (s.create remote payload).result <;>
          simp [pageHandleSubmit, saved, editingWithId, he, ht, hr]

theorem save_calls_edit_or_create_witness :
    (pageHandleSubmit remoteFiltering storeAB ⟨true, some recordA⟩ payloadC).calls
        = [.edit recordA.id payloadC] ∧
      (pageHandleSubmit remoteFiltering storeAB ⟨true, some recordA⟩ payloadC).page
        = { modalOpen := false, editing := none } :=
  ⟨((save_calls_edit_or_create remoteFiltering storeAB ⟨true, some recordA⟩ payloadC).1
      recordA rfl rfl).1,
    ((save_calls_edit_or_create remoteFiltering storeAB ⟨true, some recordA⟩ payloadC).1
      recordA rfl rfl).2.1 _ rfl⟩

/-- C28: when the create request succeeds with record `r` and the load that
create reissues fails with `err`, create resolves with `r`, the store's last
error is `err`, and the local list is the previous list with `r` appended. -/
theorem create_resolves_when_reload_fails (remote : Remote) (s : Store) (payload : Payload)
    (r : Employee) (err : ApiError) (h : remote.addEmployee payload = .ok r)
    (h2 : remote.getEmployees s.currentParams = .error err) :
    (s.create remote payload).result = .ok r ∧
      (s.create remote payload).store.error = some err ∧
      (s.create remote payload).store.employees = s.employees ++ [r] := by
  simp [Store.create, create_run, h, h2]

theorem create_resolves_when_reload_fails_witness :
    remoteAddThenFail.addEmployee payloadC = .ok recordC ∧
      remoteAddThenFail.getEmployees storeAB.currentParams = .error networkError ∧
      (storeAB.create remoteAddThenFail payloadC).result = .ok recordC ∧
      (storeAB.create remoteAddThenFail payloadC).store.error = some networkError ∧
      (storeAB.create remoteAddThenFail payloadC).store.employees
        = storeAB.employees ++ [recordC] :=
  ⟨rfl, rfl,
    create_resolves_when_reload_fails remoteAddThenFail storeAB payloadC recordC networkError
      rfl rfl⟩

theorem run_keeps_error {α : Type} (remote : Remote) (x : Async α) :
    ∀ (s : Store) (log : List (Request × Store)), s.error ≠ none →
      (x.run remote s log).store.error ≠ none := by
  induction x with
  | resolve v => intro s log h; exact h
  | reject err => intro s log h; exact h
  | setLoading b k ih => intro s log h; exact ih _ _ h
  | setEmployees f k ih => intro s log h; exact ih _ _ h
  | setError err k ih => intro s log _; exact ih _ _ (by simp)
  | setCurrentParams p k ih => intro s log h; exact ih _ _ h
  | getEmployees params k ih => intro s log h; exact ih _ _ _ h
  | addEmployee employee k ih => intro s log h; exact ih _ _ _ h
  | updateEmployee id payload k ih => intro s log h; exact ih _ _ _ h
  | deleteEmployee id k ih => intro s log h; exact ih _ _ _ h

theorem advance_keeps_error {α : Type} (x : Async α) :
    ∀ s : Store, s.error ≠ none → (x.advance s).2.error ≠ none := by
  induction x with
  | resolve v => intro s h; exact h
  | reject err => intro s h; exact h
  | setLoading b k ih => intro s h; exact ih _ h
  | setEmployees f k ih => intro s h; exact ih _ h
  | setError err k ih => intro s _; exact ih _ (by simp)
  | setCurrentParams p k ih => intro s h; exact ih _ h
  | getEmployees params k _ => intro s h; exact h
  | addEmployee employee k _ => intro s h; exact h
  | updateEmployee id payload k _ => intro s h; exact h
  | deleteEmployee id k _ => intro s h; exact h

theorem step_keeps_error (s : Store) (st : Step) (h : s.error ≠ none) :
    (s.step st).error ≠ none := by
  cases st <;> exact run_keeps_error _ _ s [] h

theorem steps_keep_error (steps : List Step) :
    ∀ s : Store, s.error ≠ none → (s.steps steps).error ≠ none := by
  induction steps with
  | nil => intro s h; exact h
  | cons st rest ih => intro s h; exact ih (s.step st) (step_keeps_error s st h)

theorem session_step_keeps_error (σ : Session) (ev : Event) (h : σ.store.error ≠ none) :
    (σ.step ev).store.error ≠ none := by
  cases ev with
  | start call => exact advance_keeps_error _ σ.store h
  | respond i remote =>
      cases hi : σ.inFlight[i]? with
      | none => simpa [Session.step, hi] using h
      | some op =>
          have h2 := advance_keeps_error (op.resume remote) σ.store h
          simpa [Session.step, hi] using h2

theorem session_steps_keep_error (events : List Event) :
    ∀ σ : Session, σ.store.error ≠ none → (σ.steps events).store.error ≠ none := by
  induction events with
  | nil => intro σ h; exact h
  | cons ev rest ih => intro σ h; exact ih (σ.step ev) (session_step_keeps_error σ ev h)

/-- C29: no store operation resets the last error: after a failed load or a
failed create, and from any state that holds an error, the error field is
non-empty after every later sequence of loads, creates, removes and updates,
whatever the server answers, completed one at a time or overlapping; and a
failed remove or update leaves the error field as it was. -/
theorem error_never_cleared (s : Store) (remote : Remote) :
    (∀ params err steps, remote.getEmployees params = .error err →
        ((s.fetch remote params).store.steps steps).error ≠ none) ∧
      (∀ payload err steps, remote.addEmployee payload = .error err →
        ((s.create remote payload).store.steps steps).error ≠ none) ∧
      (∀ steps, s.error ≠ none → (s.steps steps).error ≠ none) ∧
      (∀ inFlight events, s.error ≠ none →
        ((Session.mk s inFlight).steps events).store.error ≠ none) ∧
      (∀ id err, remote.deleteEmployee id = .error err →
        (s.remove remote id).store.error = s.error) ∧
      ∀ id payload err, remote.updateEmployee id payload = .error err →
        (s.edit remote id payload).store.error = s.error := by
  refine ⟨?_, ?_, ?_, ?_, ?_, ?_⟩
  · intro params err steps h
    exact steps_keep_error steps _ (by simp [Store.fetch, fetch_run, h])
  · intro payload err steps h
    exact steps_keep_error steps _ (by simp [Store.create, create_run, h])
  · intro steps h
    exact steps_keep_error steps s h
  · intro inFlight events h
    exact session_steps_keep_error events _ h
  · intro id err h
    simp [Store.remove, remove_run, h]
  · intro id payload err h
    simp [Store.edit, edit_run, h]

theorem error_never_cleared_witness :
    ((Store.initial.fetch (Remote.failing networkError) paramsEng).store.steps
        stepsExample).error ≠ none :=
  (error_never_cleared Store.initial (Remote.failing networkError)).1 paramsEng networkError
    stepsExample rfl

/-- C30: for a record selected for editing whose id is 0 or the empty string,
the form is in add mode (`isEdit` is false, the button reads "Add") and
submitting calls `create(payload)`, not `edit`. -/
theorem falsy_id_is_add_mode (remote : Remote) (s : Store) (modalOpen : Bool)
    (payload : Payload) (e : Employee) (h : e.id = .num 0 ∨ e.id = .str "") :
    isEdit (some e) = false ∧ submitLabel (some e) = "Add" ∧
      (pageHandleSubmit remote s ⟨modalOpen, some e⟩ payload).calls = [.create payload] := by
  have ht : e.id.truthy = false := by
    rcases h with h | h <;> rw [h] <;> rfl
  refine ⟨by simp [isEdit, ht], by simp [submitLabel, isEdit, ht], ?_⟩
  cases hr : (s.create remote payload).result <;>
    simp [pageHandleSubmit, saved, editingWithId, ht, hr]

theorem falsy_id_is_add_mode_witness :
    (recordZero.id = .num 0 ∨ recordZero.id = .str "") ∧
      isEdit (some recordZero) = false ∧ submitLabel (some recordZero) = "Add" ∧
      (pageHandleSubmit remoteFiltering storeAB ⟨true, some recordZero⟩ payloadC).calls
        = [.create payloadC] :=
  ⟨Or.inl rfl, falsy_id_is_add_mode remoteFiltering storeAB true payloadC recordZero
    (Or.inl rfl)⟩

/-! ## Overlapping loads: the params a create reloads with -/

theorem map_eraseIdx_eq {α β : Type} (f : α → β) (l : List α) :
    ∀ i, (l.map f).eraseIdx i = (l.eraseIdx i).map f := by
  induction l with
  | nil => intro i; rfl
  | cons a rest ih =>
      intro i
      cases i with
      | zero => rfl
      | succ j => simp [List.eraseIdx, ih j]

theorem start_create_inFlight (σ : Session) (payload : Payload) :
    (σ.step (.start (.create payload))).inFlight
      = σ.inFlight ++ [createInFlight σ.store.currentParams payload] := rfl

theorem load_event_keeps_log (c0 : Params) (σ : Session) (log : LoadLog) (ev : Event)
    (hev : ev.isLoad = true) (h1 : σ.inFlight = log.pending.map fetchInFlight)
    (h2 : σ.store.currentParams = log.lastApplied.getD c0) :
    (σ.step ev).inFlight = (log.step ev).pending.map fetchInFlight ∧
      (σ.step ev).store.currentParams = (log.step ev).lastApplied.getD c0 := by
  cases ev with
  | start call =>
      cases call with
      | fetch p =>
          refine ⟨?_, ?_⟩
          · rw [start_fetch_inFlight, h1]
            simp [LoadLog.step]
          · simpa [LoadLog.step] using h2
      | create payload => simp [Event.isLoad] at hev
      | remove id => simp [Event.isLoad] at hev
      | edit id payload => simp [Event.isLoad] at hev
  | respond i remote =>
      cases hp : log.pending[i]? with
      | none =>
          have hi : σ.inFlight[i]? = none := by rw [h1]; simp [hp]
          simp only [Session.step, hi, LoadLog.step, hp]
          exact ⟨h1, h2⟩
      | some p =>
          have hi : σ.inFlight[i]? = some (fetchInFlight p) := by rw [h1]; simp [hp]
          cases hg : remote.getEmployees p with
          | ok l =>
              simp [Session.step, hi, LoadLog.step, hp, hg, fetchInFlight, fetch,
                Async.advance, Async.resume, Async.settled, Async.bind_def, Async.pure_def,
                Async.bind, Async.tryCatch, Async.tryFinally, Async.settle, setLoading,
                setEmployees, setError, setCurrentParams, getEmployees]
              rw [h1, map_eraseIdx_eq]
          | error err =>
              simp [Session.step, hi, LoadLog.step, hp, hg, fetchInFlight, fetch,
                Async.advance, Async.resume, Async.settled, Async.bind_def, Async.pure_def,
                Async.bind, Async.tryCatch, Async.tryFinally, Async.settle, setLoading,
                setEmployees, setError, setCurrentParams, getEmployees]
              refine ⟨?_, h2⟩
              rw [h1, map_eraseIdx_eq]

theorem load_events_keep_log (c0 : Params) (events : List Event) :
    ∀ (σ : Session) (log : LoadLog), (∀ ev ∈ events, ev.isLoad = true) →
      σ.inFlight = log.pending.map fetchInFlight →
      σ.store.currentParams = log.lastApplied.getD c0 →
      (σ.steps events).inFlight = (log.steps events).pending.map fetchInFlight ∧
        (σ.steps events).store.currentParams = (log.steps events).lastApplied.getD c0 := by
  induction events with
  | nil => intro σ log _ h1 h2; exact ⟨h1, h2⟩
  | cons ev rest ih =>
      intro σ log hev h1 h2
      obtain ⟨h3, h4⟩ :=
        load_event_keeps_log c0 σ log ev (hev ev (List.mem_cons_self _ _)) h1 h2
      exact ih (σ.step ev) (log.step ev) (fun e he => hev e (List.mem_cons_of_mem _ he)) h3 h4

theorem create_answered_awaits_reload (τ : Session) (i : Nat) (cp : Params)
    (payload : Payload) (remote : Remote) (r : Employee)
    (hop : τ.inFlight[i]? = some (createInFlight cp payload))
    (hr : remote.addEmployee payload = .ok r) :
    (τ.step (.respond i remote)).inFlight[i]?.bind Async.awaits
      = some (.getEmployees cp) := by
  have hi : i < τ.inFlight.length := by
    rcases Nat.lt_or_ge i τ.inFlight.length with h | h
    · exact h
    · rw [List.getElem?_eq_none h] at hop
      cases hop
  simp [Session.step, hop, createInFlight, create, fetch, Async.discard, Async.advance,
    Async.resume, Async.settled, Async.awaits, Async.bind_def, Async.pure_def, Async.bind,
    Async.tryCatch, Async.tryFinally, Async.settle, setLoading, setEmployees, setError,
    setCurrentParams, getEmployees, addEmployee, hr, hi]

/-- C12, amended: for every interleaving of load calls and their answers on
one store (the loads may overlap, and some may still be in flight), followed
by a create call whose request succeeds, the load that create reissues has the
params the store remembers when create is called: those of the load whose
successful response was applied last before that call, whichever load was
called last, and the params remembered before the loads when no response has
succeeded by then.  The create holds these params from its call on, whatever
is answered before its own request is. -/
theorem create_reloads_last_applied_params (s : Store) (events : List Event)
    (payload : Payload) (hloads : ∀ ev ∈ events, ev.isLoad = true) :
    ((Session.mk s []).steps events).store.currentParams
        = (LoadLog.empty.steps events).lastApplied.getD s.currentParams ∧
      (((Session.mk s []).steps events).step (.start (.create payload))).inFlight
        = ((Session.mk s []).steps events).inFlight ++
            [createInFlight ((LoadLog.empty.steps events).lastApplied.getD s.currentParams)
              payload] ∧
      ∀ (τ : Session) (i : Nat) (cp : Params) (remote : Remote) (r : Employee),
        τ.inFlight[i]? = some (createInFlight cp payload) →
        remote.addEmployee payload = .ok r →
        (τ.step (.respond i remote)).inFlight[i]?.bind Async.awaits
          = some (.getEmployees cp) := by
  obtain ⟨_, h2⟩ := load_events_keep_log s.currentParams events (Session.mk s [])
    LoadLog.empty hloads rfl rfl
  refine ⟨h2, ?_, fun τ i cp remote r hop hr =>
    create_answered_awaits_reload τ i cp payload remote r hop hr⟩
  rw [start_create_inFlight, h2]

theorem create_reloads_last_applied_params_witness :
    (∀ ev ∈ crossedLoads, ev.isLoad = true) ∧
      ((Session.mk Store.initial []).steps crossedLoads).store.currentParams
        = ⟨none, some "a"⟩ ∧
      (((Session.mk Store.initial []).steps crossedLoads).step
          (.start (.create payloadC))).inFlight
        = [createInFlight ⟨none, some "a"⟩ payloadC] ∧
      ((((Session.mk Store.initial []).steps crossedLoads).step
          (.start (.create payloadC))).step (.respond 0 remoteFiltering)).inFlight[0]?.bind
          Async.awaits
        = some (.getEmployees ⟨none, some "a"⟩) :=
  ⟨by decide,
    (create_reloads_last_applied_params Store.initial crossedLoads payloadC (by decide)).1,
    (create_reloads_last_applied_params Store.initial crossedLoads payloadC (by decide)).2.1,
    (create_reloads_last_applied_params Store.initial crossedLoads payloadC (by decide)).2.2
      _ 0 ⟨none, some "a"⟩ remoteFiltering recordC rfl rfl⟩

end EmployeesDashboard
